import Mathlib

/-!
Verification of the SQL metadata crawl engine of this repository
(`metadata-ingestion/src/datahub/ingestion/source/sql/sql_common.py` and
`metadata-ingestion/src/datahub/ingestion/source/sql/presto_on_hive.py`)
against its natural-language specification.

The Python modules are shallowly embedded: each embedded definition mirrors one
function of the source (its doc comment names the source symbol).  The mutable
`SQLSourceReport` becomes an explicitly threaded `Report` value, Python
exceptions become `Except PyErr`, the SQLAlchemy `Inspector` becomes a record
of pure introspection functions, and generator `yield`s become list append.
Work units that carry aspects irrelevant to the verified claims (telemetry,
data-platform-instance, subtype and domain aspects, lineage) are omitted from
the event alphabet; the omission only removes events that are neither
containers nor dataset snapshots nor view-properties records.
-/

namespace SqlCommon

/-- Python exceptions, distinguished exactly as the source's `except` clauses
distinguish them (`KeyError`, `NotImplementedError`, everything else). -/
inductive PyErr where
  | keyError
  | notImplementedError
  | otherError (msg : String)
  deriving DecidableEq, Repr

/-- Rendering of an exception inside a warning message (Python `f"... {e}"`). -/
def pyErrMsg : PyErr → String
  | PyErr.keyError => "KeyError"
  | PyErr.notImplementedError => "NotImplementedError"
  | PyErr.otherError m => m

/-- `sql_common.MISSING_COLUMN_INFO`. -/
def MISSING_COLUMN_INFO : String := "missing column information"

/-- `SQLSourceReport` (plus the inherited `SourceReport` containers used by the
source).  `warnings` is the inherited warning store: the source's
`report_warning(key, reason)` appends `reason` under `key`; we keep the pairs
in call order.  `failures` likewise for `report_failure`.  `filtered` is
`SQLSourceReport.filtered` (names passed to `report_dropped`). -/
structure Report where
  warnings : List (String × String)
  failures : List (String × String)
  filtered : List String
  tables_scanned : Nat
  views_scanned : Nat
  entities_profiled : Nat
  deriving DecidableEq, Repr

/-- A fresh `SQLSourceReport()`. -/
def report0 : Report := Report.mk [] [] [] 0 0 0

/-- Modelled from the spec: `report_warning` of the `SourceReport` base class
(outside `src/`) records one warning, keyed by its first argument; the spec's
error-handling section treats a recorded warning as an appended report entry. -/
def report_warning (r : Report) (key reason : String) : Report :=
  Report.mk (r.warnings ++ [(key, reason)]) r.failures r.filtered
    r.tables_scanned r.views_scanned r.entities_profiled

/-- Modelled from the spec: `report_failure` of the `SourceReport` base class
(outside `src/`) records one failure entry. -/
def report_failure (r : Report) (key reason : String) : Report :=
  Report.mk r.warnings (r.failures ++ [(key, reason)]) r.filtered
    r.tables_scanned r.views_scanned r.entities_profiled

/-- `SQLSourceReport.report_dropped`. -/
def report_dropped (r : Report) (name : String) : Report :=
  Report.mk r.warnings r.failures (r.filtered ++ [name])
    r.tables_scanned r.views_scanned r.entities_profiled

/-- `SQLSourceReport.report_entity_scanned(..., ent_type="table")`. -/
def report_table_scanned (r : Report) : Report :=
  Report.mk r.warnings r.failures r.filtered
    (r.tables_scanned + 1) r.views_scanned r.entities_profiled

/-- `SQLSourceReport.report_entity_scanned(..., ent_type="view")`. -/
def report_view_scanned (r : Report) : Report :=
  Report.mk r.warnings r.failures r.filtered
    r.tables_scanned (r.views_scanned + 1) r.entities_profiled

/-- `SQLSourceReport.report_entity_profiled`. -/
def report_entity_profiled (r : Report) : Report :=
  Report.mk r.warnings r.failures r.filtered
    r.tables_scanned r.views_scanned (r.entities_profiled + 1)

/-- `self.report.warnings.get(key)`: the reasons recorded under `key`
(used by `loop_profiler_requests` for the `MISSING_COLUMN_INFO` key). -/
def warnings_under (r : Report) (key : String) : List String :=
  r.warnings.filterMap (fun p => if p.1 = key then some p.2 else none)

/-! ## TypeMapper: `get_column_type`, `_field_type_mapping`,
`_known_unknown_field_types`, `register_custom_type` -/

/-- The canonical type categories (`NumberTypeClass`, ..., `NullTypeClass`);
`NullType` is the "Unknown" category of the spec. -/
inductive FieldTypeClass where
  | NumberType
  | BooleanType
  | EnumType
  | BytesType
  | ArrayType
  | StringType
  | DateType
  | TimeType
  | RecordType
  | NullType
  deriving DecidableEq, Repr

/-- A SQLAlchemy type class object (a key of `_field_type_mapping`), named by
its source path. -/
abbrev TypeKey := String

/-- A runtime column type value.  `instanceOf` lists every class `c` with
`isinstance(value, c)` true, i.e. the value's class together with all of its
superclasses; this encodes exactly what Python's `isinstance` consults. -/
structure ColType where
  instanceOf : List TypeKey
  deriving DecidableEq, Repr

/-- Python `isinstance(column_type, sql_type)`. -/
def isinstance (column_type : ColType) (sql_type : TypeKey) : Bool :=
  sql_type ∈ column_type.instanceOf

/-- The module-level `_field_type_mapping` dict literal of `sql_common.py`,
in its insertion (iteration) order. -/
def _field_type_mapping : List (TypeKey × FieldTypeClass) :=
  [("types.Integer", FieldTypeClass.NumberType),
   ("types.Numeric", FieldTypeClass.NumberType),
   ("types.Boolean", FieldTypeClass.BooleanType),
   ("types.Enum", FieldTypeClass.EnumType),
   ("types._Binary", FieldTypeClass.BytesType),
   ("types.LargeBinary", FieldTypeClass.BytesType),
   ("types.PickleType", FieldTypeClass.BytesType),
   ("types.ARRAY", FieldTypeClass.ArrayType),
   ("types.String", FieldTypeClass.StringType),
   ("types.Date", FieldTypeClass.DateType),
   ("types.DATE", FieldTypeClass.DateType),
   ("types.Time", FieldTypeClass.TimeType),
   ("types.DateTime", FieldTypeClass.TimeType),
   ("types.DATETIME", FieldTypeClass.TimeType),
   ("types.TIMESTAMP", FieldTypeClass.TimeType),
   ("types.JSON", FieldTypeClass.RecordType),
   ("postgresql.BYTEA", FieldTypeClass.BytesType),
   ("postgresql.DOUBLE_PRECISION", FieldTypeClass.NumberType),
   ("postgresql.INET", FieldTypeClass.StringType),
   ("postgresql.MACADDR", FieldTypeClass.StringType),
   ("postgresql.MONEY", FieldTypeClass.NumberType),
   ("postgresql.OID", FieldTypeClass.StringType),
   ("postgresql.REGCLASS", FieldTypeClass.BytesType),
   ("postgresql.TIMESTAMP", FieldTypeClass.TimeType),
   ("postgresql.TIME", FieldTypeClass.TimeType),
   ("postgresql.INTERVAL", FieldTypeClass.TimeType),
   ("postgresql.BIT", FieldTypeClass.BytesType),
   ("postgresql.UUID", FieldTypeClass.StringType),
   ("postgresql.TSVECTOR", FieldTypeClass.BytesType),
   ("postgresql.ENUM", FieldTypeClass.EnumType),
   ("types.NullType", FieldTypeClass.NullType)]

/-- The module-level `_known_unknown_field_types` set literal. -/
def _known_unknown_field_types : List TypeKey :=
  ["types.Interval", "types.CLOB"]

/-- The module-level mutable state of `sql_common.py` that the type mapper
reads: the (single, process-wide) `_field_type_mapping` dict and
`_known_unknown_field_types` set.  There is exactly one such state per
process; every `SQLAlchemySource` instance consults it. -/
structure TypeRegistry where
  field_type_mapping : List (TypeKey × FieldTypeClass)
  known_unknown_field_types : List TypeKey
  deriving DecidableEq, Repr

/-- The module state right after import: the two literals above. -/
def initRegistry : TypeRegistry :=
  TypeRegistry.mk _field_type_mapping _known_unknown_field_types

/-- Python dict assignment `d[k] = v` on an insertion-ordered dict: replace the
value at the existing key position, else append at the end. -/
def dict_assign (m : List (TypeKey × FieldTypeClass)) (k : TypeKey)
    (v : FieldTypeClass) : List (TypeKey × FieldTypeClass) :=
  if m.any (fun p => p.1 = k) then
    m.map (fun p => if p.1 = k then (k, v) else p)
  else m ++ [(k, v)]

/-- Python set add `s.add(x)` (membership-idempotent; we fix append order). -/
def set_add (s : List TypeKey) (k : TypeKey) : List TypeKey :=
  if k ∈ s then s else s ++ [k]

/-- `register_custom_type(tp, output)`: mutates the module-level state —
`_field_type_mapping[tp] = output` when an output class is given, else
`_known_unknown_field_types.add(tp)`.  The returned value is the module state
after the call; there is no per-instance copy anywhere in the source. -/
def register_custom_type (reg : TypeRegistry) (tp : TypeKey)
    (output : Option FieldTypeClass) : TypeRegistry :=
  match output with
  | some o => TypeRegistry.mk (dict_assign reg.field_type_mapping tp o)
      reg.known_unknown_field_types
  | none => TypeRegistry.mk reg.field_type_mapping
      (set_add reg.known_unknown_field_types tp)

/-- `get_column_type(sql_report, dataset_name, column_type)`: scan
`_field_type_mapping` in iteration order for the first `isinstance` match;
failing that scan `_known_unknown_field_types` (all of whose members map to
`NullTypeClass`); failing that record one warning and fall back to
`NullTypeClass`.  `reg` is the module state at call time. -/
def get_column_type (reg : TypeRegistry) (sql_report : Report)
    (dataset_name : String) (column_type : ColType) : FieldTypeClass × Report :=
  match reg.field_type_mapping.find? (fun p => isinstance column_type p.1) with
  | some p => (p.2, sql_report)
  | none =>
    if reg.known_unknown_field_types.any (fun k => isinstance column_type k) then
      (FieldTypeClass.NullType, sql_report)
    else
      (FieldTypeClass.NullType,
       report_warning sql_report dataset_name
         "unable to map type to metadata schema")

/-! ## Shared pieces of the crawl model -/

/-- One row of `inspector.get_columns`: the fields of the SQLAlchemy column
dict that the embedded claims consume (`name`, `nullable`).  The `type` entry
feeds the type mapper, embedded separately above; the remaining entries
(`full_type`, `comment`) only decorate the emitted field and are omitted. -/
structure Column where
  name : String
  nullable : Bool
  deriving DecidableEq, Repr

/-- A `SchemaField` as far as the claims observe it: `fieldPath`, `nullable`
and `isPartOfKey` (the spec's `isKeyColumn`). -/
structure SchemaField where
  fieldPath : String
  nullable : Bool
  isPartOfKey : Bool
  deriving DecidableEq, Repr

/-- Result of `inspector.get_pk_constraint`: either a dict (whose
`constrained_columns` entry, defaulting to `[]`, is the primary-key column
list) or — for some dialects such as hive — a non-dict value (a list). -/
inductive PKConstraints where
  | dict (constrained_columns : List String)
  | nonDict
  deriving DecidableEq, Repr

/-- The value a dialect returns from `inspector.get_view_definition`; `str` is
its Python `str(...)` conversion (some dialects return a `TextClause` rather
than a raw string). -/
structure ViewDefValue where
  str : String
  deriving DecidableEq, Repr

/-- `ViewPropertiesClass(materialized, viewLanguage, viewLogic)`. -/
structure ViewProperties where
  materialized : Bool
  viewLanguage : String
  viewLogic : String
  deriving DecidableEq, Repr

/-- The work units the verified claims observe, in yield order:
container work units (modelled from the spec: `gen_database_container`,
`gen_schema_container` and `add_table_to_schema_container` live in
`sql_utils`, outside `src/`; per spec §4.4 steps 2–3 each emits its container
entity), the `SqlWorkUnit` carrying the dataset snapshot (with the fields of
its `SchemaMetadata` aspect, or `none` when no schema aspect is attached), and
the view-properties work unit. -/
inductive WorkUnit where
  | dbContainer (db : String)
  | schemaContainer (db : String) (schema : String)
  | containment (dataset_name : String)
  | dataset (schema : String) (dataset_name : String)
      (fields : Option (List SchemaField))
  | viewProps (dataset_name : String) (props : ViewProperties)
  deriving DecidableEq, Repr

/-- The catalog-introspection contract the crawl consumes (SQLAlchemy
`Inspector`).  Introspection functions take the schema first, then the entity
(the source passes `(entity, schema)`); fallible calls return `Except`. -/
structure Inspector where
  schema_names : List String
  table_names : String → List String
  view_names : String → List String
  columns : String → String → Except PyErr (List Column)
  pk_constraint : String → String → Except PyErr PKConstraints
  view_definition : String → String → Except PyErr (Option ViewDefValue)

/-- The slice of `SQLAlchemyConfig` the crawl consumes.  The `allowed` method
of each `AllowDenyPattern` (defined outside `src/`) is kept abstract as a
boolean predicate.  `profile_candidates` is the outcome of
`generate_profile_candidates` for a schema (`none` both when candidate
generation yields no filtering and when the dialect raises
`NotImplementedError`, as the base class does). -/
structure SQLConfig where
  schema_pattern : String → Bool
  table_pattern : String → Bool
  view_pattern : String → Bool
  profile_pattern : String → Bool
  include_tables : Bool
  include_views : Bool
  profiling_enabled : Bool
  profile_candidates : Option (List String)
  report_dropped_profiles : Bool

/-- `get_identifier(schema, entity)` of the base source:
`f"{schema}.{entity}"`.  (`standardize_schema_table_names` and
`normalise_dataset_name` are the identity in the base class.) -/
def get_identifier (schema entity : String) : String :=
  schema ++ "." ++ entity

/-- `_get_columns(dataset_name, inspector, schema, table)`: any exception is
caught and recorded as a warning (leaving `columns = []`); an empty column
list records the `MISSING_COLUMN_INFO` warning. -/
def _get_columns (insp : Inspector) (schema table dataset_name : String)
    (report : Report) : List Column × Report :=
  match insp.columns schema table with
  | Except.ok cols =>
    if cols.length = 0 then
      (cols, report_warning report MISSING_COLUMN_INFO dataset_name)
    else (cols, report)
  | Except.error e =>
    ([], report_warning report dataset_name
        ("unable to get column information due to an error -> " ++ pyErrMsg e))

/-- `get_schema_fields_for_column`: one field per column; `isPartOfKey` is set
exactly when `pk_constraints` is a dict and the column name occurs in its
`constrained_columns` list.  (Tags are `None` in the base class and omitted.) -/
def get_schema_fields_for_column (column : Column)
    (pk_constraints : Option PKConstraints) : List SchemaField :=
  match pk_constraints with
  | some (PKConstraints.dict cc) =>
    if column.name ∈ cc then [SchemaField.mk column.name column.nullable true]
    else [SchemaField.mk column.name column.nullable false]
  | _ => [SchemaField.mk column.name column.nullable false]

/-- `get_schema_fields`: concatenation of the per-column fields. -/
def get_schema_fields (columns : List Column)
    (pk_constraints : Option PKConstraints) : List SchemaField :=
  columns.flatMap (fun c => get_schema_fields_for_column c pk_constraints)

/-- `_process_table` (the part of it the claims observe): fetch columns
(failure-absorbing), fetch the primary-key constraint (an exception here
propagates to the caller), then yield the containment work unit and the
dataset snapshot work unit whose schema aspect holds the computed fields.
Table properties, lineage, platform-instance, subtype and domain work units
are omitted (none is a container or a dataset snapshot). -/
def _process_table (insp : Inspector) (schema table dataset_name : String)
    (report : Report) : Except PyErr (List WorkUnit) × Report :=
  let cr := _get_columns insp schema table dataset_name report
  match insp.pk_constraint schema table with
  | Except.error e => (Except.error e, cr.2)
  | Except.ok pk =>
    (Except.ok [WorkUnit.containment dataset_name,
        WorkUnit.dataset schema dataset_name
          (some (get_schema_fields cr.1 (some pk)))], cr.2)

/-- The fields `_process_table` attaches for a table whose primary-key fetch
returned `pk` (columns of a failed fetch degrade to `[]`). -/
def table_fields (insp : Inspector) (schema table : String)
    (pk : PKConstraints) : List SchemaField :=
  get_schema_fields
    (match insp.columns schema table with
     | Except.ok cols => cols
     | Except.error _ => []) (some pk)

/-- The warnings `_get_columns` records for one table, as a pure value. -/
def table_warnings (insp : Inspector) (schema table dataset_name : String) :
    List (String × String) :=
  match insp.columns schema table with
  | Except.ok cols =>
    if cols.length = 0 then [(MISSING_COLUMN_INFO, dataset_name)] else []
  | Except.error e =>
    [(dataset_name, "unable to get column information due to an error -> "
        ++ pyErrMsg e)]

/-- The outcome of `_process_table` as a pure value (its report effect is
`table_warnings`). -/
def table_result (insp : Inspector) (schema table dataset_name : String) :
    Except PyErr (List WorkUnit) :=
  match insp.pk_constraint schema table with
  | Except.error e => Except.error e
  | Except.ok pk =>
    Except.ok [WorkUnit.containment dataset_name,
      WorkUnit.dataset schema dataset_name
        (some (table_fields insp schema table pk))]

/-- `loop_tables`, inner loop over `inspector.get_table_names(schema)` with
the `tables_seen` dedup set: skip an already-seen identifier; otherwise record
the scan, drop pattern-rejected names, and process the table — an exception
from `_process_table` is caught and recorded as an `Ingestion error` warning
for that one table.  (The warning key `f"{schema}.{table}"` coincides with
the base-class identifier.) -/
def loop_tables_go (insp : Inspector) (cfg : SQLConfig) (schema : String) :
    List String → List String → Report → List WorkUnit × Report
  | [], _, report => ([], report)
  | t :: ts, seen, report =>
    let dataset_name := get_identifier schema t
    if dataset_name ∈ seen then
      loop_tables_go insp cfg schema ts seen report
    else
      let report := report_table_scanned report
      if ¬ cfg.table_pattern dataset_name then
        loop_tables_go insp cfg schema ts (dataset_name :: seen)
          (report_dropped report dataset_name)
      else
        match _process_table insp schema t dataset_name report with
        | (Except.ok evs, report) =>
          let r := loop_tables_go insp cfg schema ts (dataset_name :: seen) report
          (evs ++ r.1, r.2)
        | (Except.error e, report) =>
          loop_tables_go insp cfg schema ts (dataset_name :: seen)
            (report_warning report dataset_name
              ("Ingestion error: " ++ pyErrMsg e))

/-- `loop_tables(inspector, schema, sql_config)` with its fresh
`tables_seen = set()`.  (`get_table_names` is total in the embedding, so the
outer `except` recording a schema-level failure is unreachable.) -/
def loop_tables (insp : Inspector) (cfg : SQLConfig) (schema : String)
    (report : Report) : List WorkUnit × Report :=
  loop_tables_go insp cfg schema (insp.table_names schema) [] report

/-- The work-unit list of `_process_view` once the view definition text is
known: containment, the dataset snapshot (schema aspect optional), and the
view-properties work unit (`materialized=False`, `viewLanguage="SQL"`), which
is always emitted because `properties["view_definition"]` is always set. -/
def view_events (schema dataset_name : String)
    (fields : Option (List SchemaField)) (view_definition : String) :
    List WorkUnit :=
  [WorkUnit.containment dataset_name,
   WorkUnit.dataset schema dataset_name fields,
   WorkUnit.viewProps dataset_name
     (ViewProperties.mk false "SQL" view_definition)]

/-- The view-definition half of `_process_view`: `None` and
`NotImplementedError` both degrade to the empty string, any other value is
`str`-converted; any other exception propagates. -/
def _process_view_rest (insp : Inspector) (schema view dataset_name : String)
    (fields : Option (List SchemaField)) (report : Report) :
    Except PyErr (List WorkUnit) × Report :=
  match insp.view_definition schema view with
  | Except.error PyErr.notImplementedError =>
    (Except.ok (view_events schema dataset_name fields ""), report)
  | Except.error e => (Except.error e, report)
  | Except.ok none =>
    (Except.ok (view_events schema dataset_name fields ""), report)
  | Except.ok (some val) =>
    (Except.ok (view_events schema dataset_name fields val.str), report)

/-- `_process_view`: fetch columns (`KeyError` degrades to a warning and an
absent schema aspect; other exceptions propagate), then handle the view
definition and yield the view's work units. -/
def _process_view (insp : Inspector) (schema view dataset_name : String)
    (report : Report) : Except PyErr (List WorkUnit) × Report :=
  match insp.columns schema view with
  | Except.error PyErr.keyError =>
    _process_view_rest insp schema view dataset_name none
      (report_warning report dataset_name "unable to get schema for this view")
  | Except.error e => (Except.error e, report)
  | Except.ok cols =>
    _process_view_rest insp schema view dataset_name
      (some (get_schema_fields cols none)) report

/-- `loop_views`, inner loop over `inspector.get_view_names(schema)`: record
the scan, drop pattern-rejected names, process — an exception from
`_process_view` is caught and recorded as an `Ingestion error` warning.
Unlike `loop_tables` there is no seen-set deduplication. -/
def loop_views_go (insp : Inspector) (cfg : SQLConfig) (schema : String) :
    List String → Report → List WorkUnit × Report
  | [], report => ([], report)
  | v :: vs, report =>
    let dataset_name := get_identifier schema v
    let report := report_view_scanned report
    if ¬ cfg.view_pattern dataset_name then
      loop_views_go insp cfg schema vs (report_dropped report dataset_name)
    else
      match _process_view insp schema v dataset_name report with
      | (Except.ok evs, report) =>
        let r := loop_views_go insp cfg schema vs report
        (evs ++ r.1, r.2)
      | (Except.error e, report) =>
        loop_views_go insp cfg schema vs
          (report_warning report dataset_name
            ("Ingestion error: " ++ pyErrMsg e))

/-- `loop_views(inspector, schema, sql_config)`. -/
def loop_views (insp : Inspector) (cfg : SQLConfig) (schema : String)
    (report : Report) : List WorkUnit × Report :=
  loop_views_go insp cfg schema (insp.view_names schema) report

/-- `is_dataset_eligible_for_profiling(dataset_name, sql_config, inspector,
profile_candidates)`, literally: pattern conjunction, and `profile_candidates
is None or (profile_candidates is not None and dataset_name in
profile_candidates)`. -/
def is_dataset_eligible_for_profiling (dataset_name : String)
    (sql_config : SQLConfig) (profile_candidates : Option (List String)) :
    Bool :=
  (sql_config.table_pattern dataset_name
      && sql_config.profile_pattern dataset_name)
    && (profile_candidates.isNone
        || (!profile_candidates.isNone
            && (profile_candidates.getD []).contains dataset_name))

/-- `loop_profiler_requests`, inner loop over `get_table_names(schema)`:
eligibility filter (optionally reporting the dropped profile), seen-set
dedup, then the `MISSING_COLUMN_INFO` exclusion, then the request.  The
base-class partition hooks (`generate_partition_profiler_query` → `(None,
None)`, `is_table_partitioned` → `None`) make the partition branches no-ops
and they are omitted.  A request is observed by its `pretty_name`. -/
def loop_profiler_requests_go (cfg : SQLConfig) (schema : String) :
    List String → List String → Report → List String × Report
  | [], _, report => ([], report)
  | t :: ts, seen, report =>
    let dataset_name := get_identifier schema t
    if ¬ is_dataset_eligible_for_profiling dataset_name cfg
        cfg.profile_candidates then
      let report :=
        if cfg.report_dropped_profiles then
          report_dropped report ("profile of " ++ dataset_name)
        else report
      loop_profiler_requests_go cfg schema ts seen report
    else if dataset_name ∈ seen then
      loop_profiler_requests_go cfg schema ts seen report
    else
      if dataset_name ∈ warnings_under report MISSING_COLUMN_INFO then
        loop_profiler_requests_go cfg schema ts (dataset_name :: seen) report
      else
        let report := report_entity_profiled report
        let r := loop_profiler_requests_go cfg schema ts
          (dataset_name :: seen) report
        (dataset_name :: r.1, r.2)

/-- `loop_profiler_requests(inspector, schema, sql_config)` with its fresh
`tables_seen = set()`. -/
def loop_profiler_requests (insp : Inspector) (cfg : SQLConfig)
    (schema : String) (report : Report) : List String × Report :=
  loop_profiler_requests_go cfg schema (insp.table_names schema) [] report

/-- The per-schema body of `get_workunits_internal`: the schema container
work unit (modelled from the spec, see `WorkUnit`), then the table loop, the
view loop, and the profile-request collection, gated by their config flags. -/
def process_schema (insp : Inspector) (cfg : SQLConfig)
    (db_name schema : String) (report : Report) :
    List WorkUnit × List String × Report :=
  let tr := if cfg.include_tables then loop_tables insp cfg schema report
    else ([], report)
  let vr := if cfg.include_views then loop_views insp cfg schema tr.2
    else ([], tr.2)
  let pr := if cfg.profiling_enabled then
      loop_profiler_requests insp cfg schema vr.2
    else ([], vr.2)
  (WorkUnit.schemaContainer db_name schema :: (tr.1 ++ vr.1), pr.1, pr.2)

/-- The walk over the allowed schemas, concatenating each schema's work units
and profile requests and threading the report. -/
def run_schemas (insp : Inspector) (cfg : SQLConfig) (db_name : String) :
    List String → Report → List WorkUnit × List String × Report
  | [], report => ([], [], report)
  | s :: ss, report =>
    let r := process_schema insp cfg db_name s report
    let rest := run_schemas insp cfg db_name ss r.2.2
    (r.1 ++ rest.1, r.2.1 ++ rest.2.1, rest.2.2)

/-- `get_allowed_schemas(inspector, db_name)`: schema-pattern filtering, with
rejected schemas reported dropped as `f"{schema}.*"`. -/
def get_allowed_schemas_go (cfg : SQLConfig) :
    List String → Report → List String × Report
  | [], report => ([], report)
  | s :: ss, report =>
    if cfg.schema_pattern s then
      let r := get_allowed_schemas_go cfg ss report
      (s :: r.1, r.2)
    else
      get_allowed_schemas_go cfg ss (report_dropped report (s ++ ".*"))

/-- `get_allowed_schemas`. -/
def get_allowed_schemas (insp : Inspector) (cfg : SQLConfig)
    (report : Report) : List String × Report :=
  get_allowed_schemas_go cfg insp.schema_names report

/-- `get_workunits_internal` for one inspector: the database container work
unit (modelled from the spec, see `WorkUnit`), then the per-schema walk.
Profile requests are returned alongside (the source hands them to the external
GE profiler after the walk; the profile work units carry neither containers
nor dataset snapshots). -/
def get_workunits_internal (insp : Inspector) (cfg : SQLConfig)
    (db_name : String) (report : Report) :
    List WorkUnit × List String × Report :=
  let ar := get_allowed_schemas insp cfg report
  let r := run_schemas insp cfg db_name ar.1 ar.2
  (WorkUnit.dbContainer db_name :: r.1, r.2.1, r.2.2)

/-- The dataset identifiers of the dataset-snapshot work units in a stream,
in emission order. -/
def dataset_names (l : List WorkUnit) : List String :=
  l.filterMap (fun ev =>
    match ev with
    | WorkUnit.dataset _ n _ => some n
    | _ => none)

/-! ### Pure characterizations used to state the loop-level lemmas -/

/-- The outcome of the view-definition half of `_process_view` as a pure
value. -/
def view_rest_result (insp : Inspector) (schema view dataset_name : String)
    (fields : Option (List SchemaField)) : Except PyErr (List WorkUnit) :=
  match insp.view_definition schema view with
  | Except.error PyErr.notImplementedError =>
    Except.ok (view_events schema dataset_name fields "")
  | Except.error e => Except.error e
  | Except.ok none => Except.ok (view_events schema dataset_name fields "")
  | Except.ok (some val) =>
    Except.ok (view_events schema dataset_name fields val.str)

/-- The outcome of `_process_view` as a pure value. -/
def view_result (insp : Inspector) (schema view dataset_name : String) :
    Except PyErr (List WorkUnit) :=
  match insp.columns schema view with
  | Except.error PyErr.keyError =>
    view_rest_result insp schema view dataset_name none
  | Except.error e => Except.error e
  | Except.ok cols =>
    view_rest_result insp schema view dataset_name
      (some (get_schema_fields cols none))

/-- All warnings the table loop records on behalf of one processed table:
the `_get_columns` warnings plus, when `_process_table` fails, the loop's
`Ingestion error` warning. -/
def loop_table_warnings (insp : Inspector) (schema table : String) :
    List (String × String) :=
  table_warnings insp schema table (get_identifier schema table) ++
    (match table_result insp schema table (get_identifier schema table) with
     | Except.error e =>
       [(get_identifier schema table, "Ingestion error: " ++ pyErrMsg e)]
     | Except.ok _ => [])

/-- The report state at which `process_schema` runs the profiler-request
loop: the incoming report threaded through the table and view loops. -/
def post_tv_report (insp : Inspector) (cfg : SQLConfig) (schema : String)
    (report : Report) : Report :=
  let tr := if cfg.include_tables then loop_tables insp cfg schema report
    else ([], report)
  (if cfg.include_views then loop_views insp cfg schema tr.2
    else ([], tr.2)).2

/-- In the stream `l`, every dataset-snapshot work unit is preceded by the
schema-container work unit of its parent schema. -/
def containers_precede (db : String) (l : List WorkUnit) : Prop :=
  ∀ l1 l2 schema n f, l = l1 ++ WorkUnit.dataset schema n f :: l2 →
    WorkUnit.schemaContainer db schema ∈ l1

/-! ### Concrete catalogs and configuration used by counterexamples and
witnesses -/

/-- An allow-everything configuration with tables, views and profiling
enabled and no profile-candidate filtering (the base-class outcome). -/
def cfgAll : SQLConfig :=
  SQLConfig.mk (fun _ => true) (fun _ => true) (fun _ => true) (fun _ => true)
    true true true none false

/-- A nullable `id` column. -/
def colId : Column := Column.mk "id" true

/-- A non-nullable `x` column. -/
def colX : Column := Column.mk "x" false

/-- A catalog whose introspection returns the view name `v` twice for schema
`s` (and no tables). -/
def c2_insp : Inspector :=
  Inspector.mk ["s"] (fun _ => []) (fun _ => ["v", "v"])
    (fun _ _ => Except.ok [colId])
    (fun _ _ => Except.ok (PKConstraints.dict []))
    (fun _ _ => Except.ok none)

/-- The spec's scenario 5 catalog: schema `s1` with tables `foo`, `bad`,
`baz`, where column introspection for `bad` raises. -/
def c3_insp : Inspector :=
  Inspector.mk ["s1"]
    (fun _ => ["foo", "bad", "baz"]) (fun _ => [])
    (fun _ t =>
      if t = "bad" then Except.error (PyErr.otherError "boom")
      else if t = "foo" then Except.ok [colId] else Except.ok [colX])
    (fun _ _ => Except.ok (PKConstraints.dict []))
    (fun _ _ => Except.ok none)

/-- A catalog whose single table `t1` raises during the primary-key lookup. -/
def c6_insp : Inspector :=
  Inspector.mk ["s"] (fun _ => ["t1"]) (fun _ => [])
    (fun _ _ => Except.ok [colId])
    (fun _ _ => Except.error (PyErr.otherError "pk boom"))
    (fun _ _ => Except.ok none)

/-- A catalog where column introspection returns zero columns for table `t`
and one column for table `u`. -/
def c7_insp : Inspector :=
  Inspector.mk ["s"] (fun _ => ["t", "u"]) (fun _ => [])
    (fun _ t => if t = "t" then Except.ok [] else Except.ok [colId])
    (fun _ _ => Except.ok (PKConstraints.dict []))
    (fun _ _ => Except.ok none)

/-- A small healthy catalog: one schema, one table with a primary key, one
view with a definition. -/
def c9_insp : Inspector :=
  Inspector.mk ["s"] (fun _ => ["t"]) (fun _ => ["v"])
    (fun _ _ => Except.ok [colId])
    (fun _ _ => Except.ok (PKConstraints.dict ["id"]))
    (fun _ _ => Except.ok (some (ViewDefValue.mk "SELECT 1")))

/-- A catalog with three views exercising the three view-definition lookup
outcomes: `NotImplementedError`, `None`, and a value. -/
def c10_insp : Inspector :=
  Inspector.mk ["s"] (fun _ => []) (fun _ => ["v1", "v2", "v3"])
    (fun _ _ => Except.ok [colId])
    (fun _ _ => Except.ok (PKConstraints.dict []))
    (fun _ v =>
      if v = "v1" then Except.error PyErr.notImplementedError
      else if v = "v2" then Except.ok none
      else Except.ok (some (ViewDefValue.mk "SELECT * FROM foo")))

/-- A fresh type key not mentioned in the default mapping. -/
def customTypeKey : TypeKey := "MyCustomType"

/-- A column type value that is an instance of only the custom class. -/
def customColType : ColType := ColType.mk ["MyCustomType"]

end SqlCommon

namespace PrestoOnHive

/-! ## `presto_on_hive.py`: `loop_tables` over ungrouped column rows -/

/-- One row of the metastore column query (`_TABLES_SQL_STATEMENT`), with the
fields `loop_tables` consumes for grouping and schema building.  The
property-only fields (`create_date`, `table_type`, `table_location`,
`description`) do not affect grouping and are omitted. -/
structure HiveColumnRow where
  schema_name : String
  table_name : String
  col_name : String
  col_type : String
  is_partition_col : Bool
  deriving DecidableEq, Repr

/-- `TableKey = namedtuple("TableKey", ["schema", "table"])`. -/
structure TableKey where
  schema : String
  table : String
  deriving DecidableEq, Repr

/-- `PrestoOnHiveSource._get_table_key(row)`. -/
def _get_table_key (row : HiveColumnRow) : TableKey :=
  TableKey.mk row.schema_name row.table_name

/-- `itertools.groupby(iter_res, self._get_table_key)`: one group per maximal
run of consecutive rows sharing a key — the order-sensitive sequential
grouping the source iterates over.  (Recursively: a row joins the group that
the following rows start when its key matches that group's key, else it opens
a new group in front.) -/
def groupby_insert (x : HiveColumnRow) :
    List (TableKey × List HiveColumnRow) → List (TableKey × List HiveColumnRow)
  | [] => [(_get_table_key x, [x])]
  | (k, g) :: rest =>
    if _get_table_key x = k then (k, x :: g) :: rest
    else (_get_table_key x, [x]) :: (k, g) :: rest

/-- The recursion of `groupby`: each row either joins the adjacent run it
heads or opens a new one. -/
def groupby : List HiveColumnRow → List (TableKey × List HiveColumnRow)
  | [] => []
  | x :: xs => groupby_insert x (groupby xs)

/-- The table keys of a row list in first-occurrence order (the key order of
an insertion-ordered map built by keyed accumulation). -/
def first_occ_keys : List HiveColumnRow → List TableKey
  | [] => []
  | x :: xs =>
    _get_table_key x ::
      (first_occ_keys xs).filter (fun k => k ≠ _get_table_key x)

/-- Modelled from the spec: the explicit keyed accumulation the spec mandates
for grouping column rows — a map from table key to that table's ordered
column-row list (spec §4.4 step 8 / §9; no such grouping exists in the
source, which uses `itertools.groupby`). -/
def keyed_group (l : List HiveColumnRow) :
    List (TableKey × List HiveColumnRow) :=
  (first_occ_keys l).map
    (fun k => (k, l.filter (fun x => _get_table_key x == k)))

/-- The `(dataset_name, columns)` pairs `PrestoOnHiveSource.loop_tables` emits
one dataset entity each for (with `include_catalog_name_in_ids = False` and
the base-class `get_identifier`): one per `groupby` group passing the
database and table patterns.  The group's column list determines the emitted
entity's schema fields and properties. -/
def presto_loop_tables_emitted (database_pattern table_pattern : String → Bool)
    (rows : List HiveColumnRow) : List (String × List HiveColumnRow) :=
  (groupby rows).filterMap (fun g =>
    let dataset_name := g.1.schema ++ "." ++ g.1.table
    if ¬ database_pattern g.1.schema then none
    else if ¬ table_pattern dataset_name then none
    else some (dataset_name, g.2))

/-- An allow-all pattern (`AllowDenyPattern.allow_all()`). -/
def allowAll : String → Bool := fun _ => true

/-- Concrete rows for table `A` of schema `s` (two columns) and table `B`
(one column), as the metastore query returns them when grouped (sorted). -/
def rowA1 : HiveColumnRow := HiveColumnRow.mk "s" "A" "c1" "int" false

/-- Second column row of table `A`. -/
def rowA2 : HiveColumnRow := HiveColumnRow.mk "s" "A" "c2" "string" false

/-- The single column row of table `B`. -/
def rowB : HiveColumnRow := HiveColumnRow.mk "s" "B" "d1" "int" false

/-- The rows in the order the `ORDER BY tbl_id, col_sort_order` query yields:
table `A`'s rows consecutive. -/
def c1_rows_sorted : List HiveColumnRow := [rowA1, rowA2, rowB]

/-- A permutation of the same rows with table `A`'s rows no longer
consecutive. -/
def c1_rows_perm : List HiveColumnRow := [rowA1, rowB, rowA2]

end PrestoOnHive

namespace SqlCommon

/-- If the first `i` elements fail a predicate and the `i`-th satisfies it,
`find?` returns the `i`-th element. -/
theorem find?_first_match {α : Type} (p : α → Bool) :
    ∀ (l : List α) (i : Nat) (hi : i < l.length),
      p (l.get ⟨i, hi⟩) = true →
      (∀ j (hj : j < i), p (l.get ⟨j, Nat.lt_trans hj hi⟩) = false) →
      l.find? p = some (l.get ⟨i, hi⟩) := by
  intro l
  induction l with
  | nil => intro i hi; exact absurd hi (Nat.not_lt_zero i)
  | cons x xs ih =>
    intro i hi hp hprev
    cases i with
    | zero =>
      have hx : p x = true := hp
      simp [List.find?, hx]
    | succ k =>
      have hx : p x = false := hprev 0 (Nat.succ_pos k)
      have hk : k < xs.length := Nat.lt_of_succ_lt_succ hi
      simp only [List.find?, hx]
      exact ih k hk hp (fun j hj => hprev (j + 1) (Nat.succ_lt_succ hj))

end SqlCommon

namespace SqlCommon

/-- **C5.**  A table is eligible for profiling iff the table pattern allows
its name, the profile pattern allows its name, and the profile candidate set
is either absent or contains the name
(`SQLAlchemySource.is_dataset_eligible_for_profiling`). -/
theorem c5_profiling_eligibility (dataset_name : String)
    (sql_config : SQLConfig) (profile_candidates : Option (List String)) :
    is_dataset_eligible_for_profiling dataset_name sql_config
        profile_candidates = true ↔
      (sql_config.table_pattern dataset_name = true ∧
       sql_config.profile_pattern dataset_name = true ∧
       (profile_candidates = none ∨
        ∃ cs, profile_candidates = some cs ∧ dataset_name ∈ cs)) := by
  cases profile_candidates with
  | none => simp [is_dataset_eligible_for_profiling, and_assoc]
  | some cs =>
    simp [is_dataset_eligible_for_profiling, and_assoc, List.elem_iff]

/-- **C4.**  `get_column_type`: a native type matching no mapping rule and no
known-unknown entry maps to the Unknown category with exactly one recorded
warning; a type matching no mapping rule but listed as known-unknown maps to
Unknown with the report untouched; otherwise the first matching rule in
mapping order determines the category (and nothing is recorded). -/
theorem c4_type_mapping_fallback (reg : TypeRegistry) (sql_report : Report)
    (dataset_name : String) (column_type : ColType) :
    ((∀ p ∈ reg.field_type_mapping, isinstance column_type p.1 = false) →
     (∀ k ∈ reg.known_unknown_field_types,
        isinstance column_type k = false) →
     get_column_type reg sql_report dataset_name column_type =
       (FieldTypeClass.NullType,
        report_warning sql_report dataset_name
          "unable to map type to metadata schema")) ∧
    ((∀ p ∈ reg.field_type_mapping, isinstance column_type p.1 = false) →
     (∃ k ∈ reg.known_unknown_field_types, isinstance column_type k = true) →
     get_column_type reg sql_report dataset_name column_type =
       (FieldTypeClass.NullType, sql_report)) ∧
    (∀ i (hi : i < reg.field_type_mapping.length),
     isinstance column_type (reg.field_type_mapping.get ⟨i, hi⟩).1 = true →
     (∀ j (hj : j < i),
        isinstance column_type
          (reg.field_type_mapping.get ⟨j, Nat.lt_trans hj hi⟩).1 = false) →
     get_column_type reg sql_report dataset_name column_type =
       ((reg.field_type_mapping.get ⟨i, hi⟩).2, sql_report)) := by
  refine ⟨?_, ?_, ?_⟩
  · intro hmap hku
    have hfind : reg.field_type_mapping.find?
        (fun p => isinstance column_type p.1) = none :=
      List.find?_eq_none.mpr (fun p hp => by simp [hmap p hp])
    have hany : reg.known_unknown_field_types.any
        (fun k => isinstance column_type k) = false :=
      List.any_eq_false.mpr (fun k hk => by simp [hku k hk])
    simp [get_column_type, hfind, hany]
  · intro hmap hku
    have hfind : reg.field_type_mapping.find?
        (fun p => isinstance column_type p.1) = none :=
      List.find?_eq_none.mpr (fun p hp => by simp [hmap p hp])
    have hany : reg.known_unknown_field_types.any
        (fun k => isinstance column_type k) = true := by
      rcases hku with ⟨k, hk, hik⟩
      exact List.any_eq_true.mpr ⟨k, hk, by simp [hik]⟩
    simp [get_column_type, hfind, hany]
  · intro i hi hp hprev
    have hfind := find?_first_match (fun p => isinstance column_type p.1)
      reg.field_type_mapping i hi hp hprev
    simp [get_column_type, hfind]

/-- **C4, witness.**  The three branches at concrete inputs: a type instance
of nothing (fresh warning), a type instance of only `types.Interval`
(known unknown, no warning), and a type instance of `types.Boolean`
(first rule match). -/
theorem c4_type_mapping_fallback_witness :
    get_column_type initRegistry report0 "db.s.t" (ColType.mk []) =
      (FieldTypeClass.NullType,
       report_warning report0 "db.s.t"
         "unable to map type to metadata schema") ∧
    get_column_type initRegistry report0 "db.s.t"
        (ColType.mk ["types.Interval"]) =
      (FieldTypeClass.NullType, report0) ∧
    get_column_type initRegistry report0 "db.s.t"
        (ColType.mk ["types.Boolean"]) =
      (FieldTypeClass.BooleanType, report0) := by
  refine ⟨?_, ?_, ?_⟩
  · exact (c4_type_mapping_fallback initRegistry report0 "db.s.t"
      (ColType.mk [])).1 (by decide) (by decide)
  · exact (c4_type_mapping_fallback initRegistry report0 "db.s.t"
      (ColType.mk ["types.Interval"])).2.1 (by decide)
      ⟨"types.Interval", by decide, by decide⟩
  · exact (c4_type_mapping_fallback initRegistry report0 "db.s.t"
      (ColType.mk ["types.Boolean"])).2.2 2 (by decide) (by decide)
      (fun j hj => by interval_cases j <;> rfl)

/-- `find?` after a dict overwrite, when the key was present. -/
theorem find?_assign_of_any (k : TypeKey) (v : FieldTypeClass) :
    ∀ m : List (TypeKey × FieldTypeClass),
      m.any (fun p => p.1 = k) = true →
      (m.map (fun p => if p.1 = k then (k, v) else p)).find?
          (fun p => p.1 = k) = some (k, v) := by
  intro m
  induction m with
  | nil => intro h; simp at h
  | cons q m ih =>
    intro h
    by_cases hq : q.1 = k
    · simp [List.find?, hq]
    · have h' : m.any (fun p => p.1 = k) = true := by
        simpa [List.any_cons, hq] using h
      simpa [List.find?, hq] using ih h'

/-- `find?` after a dict append, when the key was absent. -/
theorem find?_append_absent (k : TypeKey) (v : FieldTypeClass) :
    ∀ m : List (TypeKey × FieldTypeClass),
      (∀ p ∈ m, ¬ p.1 = k) →
      (m ++ [(k, v)]).find? (fun p => p.1 = k) = some (k, v) := by
  intro m
  induction m with
  | nil => intro _; simp [List.find?]
  | cons q m ih =>
    intro h
    have hq : ¬ q.1 = k := h q (List.mem_cons_self q m)
    simpa [List.find?, hq] using ih (fun p hp => h p (List.mem_cons_of_mem q hp))

/-- Looking up the assigned key after `dict_assign` yields the new value. -/
theorem dict_assign_find? (m : List (TypeKey × FieldTypeClass))
    (k : TypeKey) (v : FieldTypeClass) :
    (dict_assign m k v).find? (fun p => p.1 = k) = some (k, v) := by
  unfold dict_assign
  by_cases h : m.any (fun p => p.1 = k) = true
  · simpa [h] using find?_assign_of_any k v m h
  · have h' : ∀ p ∈ m, ¬ p.1 = k := by
      intro p hp hpk
      exact h (List.any_eq_true.mpr ⟨p, hp, by simp [hpk]⟩)
    simpa [h] using find?_append_absent k v m h'

/-- **C8, amended.**  `register_custom_type` mutates the single module-level
registry: after registering `(tp, o)` the mapping — the one table every
source instance's `get_column_type` consults — resolves `tp` to `o`, and
after registering `tp` with no output the known-unknown set contains `tp`.
In particular a column type that is an instance of exactly the class `tp`
is now mapped to `o` by `get_column_type`. -/
theorem c8_register_mutates_module_state (reg : TypeRegistry) (tp : TypeKey)
    (o : FieldTypeClass) :
    (register_custom_type reg tp (some o)).field_type_mapping.find?
        (fun p => p.1 = tp) = some (tp, o) ∧
    tp ∈ (register_custom_type reg tp none).known_unknown_field_types ∧
    (∀ (r : Report) (ds : String),
      (get_column_type (register_custom_type reg tp (some o)) r ds
        (ColType.mk [tp])).1 = o) := by
  refine ⟨?_, ?_, ?_⟩
  · simpa [register_custom_type] using dict_assign_find? reg.field_type_mapping tp o
  · simp only [register_custom_type, set_add]
    by_cases h : tp ∈ reg.known_unknown_field_types
    · simp [h]
    · simp [h]
  · intro r ds
    have hpred : (fun p : TypeKey × FieldTypeClass =>
        isinstance (ColType.mk [tp]) p.1) =
        (fun p : TypeKey × FieldTypeClass => p.1 = tp) := by
      funext p
      simp [isinstance]
    have hfind :
        (register_custom_type reg tp (some o)).field_type_mapping.find?
          (fun p => isinstance (ColType.mk [tp]) p.1) = some (tp, o) := by
      rw [hpred]
      simpa [register_custom_type] using dict_assign_find? reg.field_type_mapping tp o
    simp [get_column_type, hfind]

/-- **C8, counterexample.**  Registering a custom type changes the default
module-level mapping itself — there being only one table, the "default rule
table visible to other instances" is mutated: before registration the fresh
type maps to Unknown with a warning, afterwards the same (sole) table maps it
to Number. -/
theorem c8_counterexample :
    register_custom_type initRegistry customTypeKey
        (some FieldTypeClass.NumberType) ≠ initRegistry ∧
    (get_column_type
        (register_custom_type initRegistry customTypeKey
          (some FieldTypeClass.NumberType)) report0 "db.s.t"
        customColType).1 = FieldTypeClass.NumberType ∧
    (get_column_type initRegistry report0 "db.s.t" customColType).1 =
      FieldTypeClass.NullType ∧
    (get_column_type initRegistry report0 "db.s.t" customColType).2 ≠
      report0 := by
  refine ⟨by decide, by decide, by decide, by decide⟩

/-- `_process_table` computes `table_result`. -/
theorem _process_table_fst (insp : Inspector) (schema table dataset_name : String)
    (report : Report) :
    (_process_table insp schema table dataset_name report).1 =
      table_result insp schema table dataset_name := by
  unfold _process_table table_result table_fields _get_columns
  cases hc : insp.columns schema table with
  | ok cols =>
    cases hpk : insp.pk_constraint schema table <;> split <;> (try split) <;> simp
  | error e => cases hpk : insp.pk_constraint schema table <;> simp

/-- `_process_table` appends exactly `table_warnings` to the report. -/
theorem _process_table_snd (insp : Inspector) (schema table dataset_name : String)
    (report : Report) :
    (_process_table insp schema table dataset_name report).2 =
      Report.mk (report.warnings ++ table_warnings insp schema table dataset_name)
        report.failures report.filtered report.tables_scanned
        report.views_scanned report.entities_profiled := by
  unfold _process_table table_warnings _get_columns report_warning
  cases hc : insp.columns schema table with
  | ok cols =>
    cases hpk : insp.pk_constraint schema table <;> split <;> (try split) <;> simp
  | error e => cases hpk : insp.pk_constraint schema table <;> simp

/-- The dedup invariant of `loop_tables`: the emitted dataset identifiers are
pairwise distinct and disjoint from the incoming seen-set. -/
theorem loop_tables_go_names_nodup (insp : Inspector) (cfg : SQLConfig)
    (schema : String) :
    ∀ (ts seen : List String) (report : Report),
      (dataset_names (loop_tables_go insp cfg schema ts seen report).1).Nodup ∧
      ∀ n ∈ dataset_names (loop_tables_go insp cfg schema ts seen report).1,
        n ∉ seen := by
  intro ts
  induction ts with
  | nil => intro seen report; simp [loop_tables_go, dataset_names]
  | cons t ts ih =>
    intro seen report
    simp only [loop_tables_go]
    by_cases hseen : get_identifier schema t ∈ seen
    · simp only [hseen, if_true]
      exact ih seen report
    · simp only [hseen, if_false]
      by_cases hpat : cfg.table_pattern (get_identifier schema t) = true
      · rw [if_neg (by simp [hpat])]
        cases hpt : _process_table insp schema t (get_identifier schema t)
            (report_table_scanned report) with
        | mk res rep =>
          cases res with
          | error e =>
            have := ih (get_identifier schema t :: seen)
              (report_warning rep (get_identifier schema t)
                ("Ingestion error: " ++ pyErrMsg e))
            exact ⟨this.1, fun n hn =>
              fun hmem => this.2 n hn (List.mem_cons_of_mem _ hmem)⟩
          | ok evs =>
            have hres : table_result insp schema t (get_identifier schema t) =
                Except.ok evs := by
              have := _process_table_fst insp schema t (get_identifier schema t)
                (report_table_scanned report)
              rw [hpt] at this
              exact this.symm
            obtain ⟨pk, hpk, hevs⟩ : ∃ pk,
                insp.pk_constraint schema t = Except.ok pk ∧
                evs = [WorkUnit.containment (get_identifier schema t),
                  WorkUnit.dataset schema (get_identifier schema t)
                    (some (table_fields insp schema t pk))] := by
              unfold table_result at hres
              cases hpk : insp.pk_constraint schema t with
              | error e =>
                rw [hpk] at hres
                simp at hres
              | ok pk =>
                rw [hpk] at hres
                simp only [Except.ok.injEq] at hres
                exact ⟨pk, rfl, hres.symm⟩
            have hih := ih (get_identifier schema t :: seen) rep
            have hnames : dataset_names (evs ++
                (loop_tables_go insp cfg schema ts
                  (get_identifier schema t :: seen) rep).1) =
                get_identifier schema t ::
                  dataset_names (loop_tables_go insp cfg schema ts
                    (get_identifier schema t :: seen) rep).1 := by
              rw [hevs]
              simp [dataset_names]
            constructor
            · rw [hnames]
              refine List.Nodup.cons ?_ hih.1
              intro hmem
              exact hih.2 _ hmem (List.mem_cons_self _ _)
            · intro n hn
              rw [hnames] at hn
              cases List.mem_cons.mp hn with
              | inl h =>
                rw [h]
                exact hseen
              | inr h =>
                intro hmem
                exact hih.2 n h (List.mem_cons_of_mem _ hmem)
      · rw [if_pos (by simp [hpat])]
        have := ih (get_identifier schema t :: seen)
          (report_dropped (report_table_scanned report) (get_identifier schema t))
        exact ⟨this.1, fun n hn hmem =>
          this.2 n hn (List.mem_cons_of_mem _ hmem)⟩

/-- **C2, amended.**  `loop_tables` deduplicates by identifier: the dataset
identifiers it emits within one run are pairwise distinct, so at most one
table `DatasetEntity` is emitted per identifier. -/
theorem c2_tables_dedup (insp : Inspector) (cfg : SQLConfig) (schema : String)
    (report : Report) :
    (dataset_names (loop_tables insp cfg schema report).1).Nodup :=
  (loop_tables_go_names_nodup insp cfg schema (insp.table_names schema) []
    report).1

/-- **C2, counterexample.**  `loop_views` performs no deduplication: a view
name returned twice by introspection yields two dataset-snapshot work units
with the same identifier, violating "exactly one `DatasetEntity` is emitted
for it". -/
theorem c2_counterexample :
    dataset_names (loop_views c2_insp cfgAll "s" report0).1 =
      ["s.v", "s.v"] := by decide

end SqlCommon

namespace PrestoOnHive

/-- `groupby` returns no groups only for the empty row list. -/
theorem groupby_eq_nil : ∀ l : List HiveColumnRow, groupby l = [] → l = [] := by
  intro l
  cases l with
  | nil => intro _; rfl
  | cons x xs =>
    intro h
    simp only [groupby] at h
    cases hg : groupby xs with
    | nil => rw [hg] at h; simp [groupby_insert] at h
    | cons p rest =>
      rw [hg] at h
      cases p with
      | mk k g =>
        by_cases hk : _get_table_key x = k
        · simp [groupby_insert, hk] at h
        · simp [groupby_insert, hk] at h

/-- Every row's key occurs among the keys of its `groupby` groups. -/
theorem groupby_keys_complete :
    ∀ (l : List HiveColumnRow) (y : HiveColumnRow), y ∈ l →
      _get_table_key y ∈ (groupby l).map Prod.fst := by
  intro l
  induction l with
  | nil => intro y hy; simp at hy
  | cons x xs ih =>
    intro y hy
    simp only [groupby]
    cases hg : groupby xs with
    | nil =>
      have hxs : xs = [] := groupby_eq_nil xs hg
      subst hxs
      simp at hy
      simp [groupby_insert, hy]
    | cons p rest =>
      cases p with
      | mk k g =>
        cases List.mem_cons.mp hy with
        | inl hyx =>
          subst hyx
          by_cases hk : _get_table_key y = k
          · simp [groupby_insert, hk]
          · simp [groupby_insert, hk]
        | inr hyxs =>
          have := ih y hyxs
          rw [hg] at this
          by_cases hk : _get_table_key x = k
          · simpa [groupby_insert, hk] using this
          · simp only [groupby_insert, hk, if_false]
            simpa using Or.inr (by simpa using this)

/-- The keys of `keyed_group` are the first-occurrence keys. -/
theorem keyed_group_keys (l : List HiveColumnRow) :
    (keyed_group l).map Prod.fst = first_occ_keys l := by
  simp [keyed_group, List.map_map]
  exact List.map_id _

/-- First-occurrence keys are pairwise distinct. -/
theorem first_occ_keys_nodup : ∀ l : List HiveColumnRow,
    (first_occ_keys l).Nodup := by
  intro l
  induction l with
  | nil => simp [first_occ_keys]
  | cons x xs ih =>
    simp only [first_occ_keys]
    refine List.Nodup.cons ?_ (List.Nodup.filter _ ih)
    intro hmem
    have := List.of_mem_filter hmem
    simp at this

/-- Filtering away an absent key changes nothing. -/
theorem filter_ne_self_of_not_mem (c : TableKey) :
    ∀ l : List TableKey, c ∉ l → l.filter (fun kk => kk ≠ c) = l := by
  intro l h
  refine List.filter_eq_self.mpr (fun a ha => ?_)
  simp only [ne_eq, decide_eq_true_eq]
  exact fun hac => h (hac ▸ ha)

/-- **C1, amended.**  When no table key is split across two `groupby` runs —
i.e. when all rows of each table are consecutive, as the metastore query's
`ORDER BY tbl_id` guarantees — the source's `itertools.groupby` grouping
coincides with the spec-mandated explicit keyed accumulation. -/
theorem c1_grouping_amended :
    ∀ rows : List HiveColumnRow,
      ((groupby rows).map Prod.fst).Nodup → groupby rows = keyed_group rows := by
  intro rows
  induction rows with
  | nil => intro _; rfl
  | cons x xs ih =>
    intro hnd
    simp only [groupby] at hnd ⊢
    cases hg : groupby xs with
    | nil =>
      have hxs : xs = [] := groupby_eq_nil xs hg
      subst hxs
      simp [groupby_insert, keyed_group, first_occ_keys]
    | cons p rest =>
      cases p with
      | mk k g =>
        rw [hg] at hnd
        simp only [groupby_insert] at hnd ⊢
        by_cases hk : _get_table_key x = k
        · -- x extends the first run; the key sets coincide with those of xs
          rw [if_pos hk] at hnd ⊢
          have hnd' : ((groupby xs).map Prod.fst).Nodup := by
            rw [hg]
            simpa using hnd
          have hkg := ih hnd'
          rw [hg] at hkg
          -- first_occ_keys xs = k :: tk with k ∉ tk
          have hfoc : first_occ_keys xs = ((k, g) :: rest).map Prod.fst := by
            rw [← keyed_group_keys, ← hkg]
          have hfoc' : first_occ_keys xs = k :: rest.map Prod.fst := by
            simpa using hfoc
          have hnotin : k ∉ rest.map Prod.fst := by
            have := first_occ_keys_nodup xs
            rw [hfoc'] at this
            exact (List.nodup_cons.mp this).1
          -- first_occ_keys (x :: xs) = first_occ_keys xs
          have hfocx : first_occ_keys (x :: xs) = k :: rest.map Prod.fst := by
            simp only [first_occ_keys, hk, hfoc']
            congr 1
            simpa using filter_ne_self_of_not_mem k (rest.map Prod.fst) hnotin
          -- unpack the IH equality componentwise
          have hmap : (k, g) :: rest =
              (k :: rest.map Prod.fst).map
                (fun kk => (kk, xs.filter (fun r => _get_table_key r == kk))) := by
            rw [hkg, keyed_group, hfoc']
          have hval : g = xs.filter (fun r => _get_table_key r == k) := by
            have := congrArg (fun l => l.headD (k, [])) hmap
            simpa using this
          have htail : rest =
              (rest.map Prod.fst).map
                (fun kk => (kk, xs.filter (fun r => _get_table_key r == kk))) := by
            have := congrArg List.tail hmap
            simpa using this
          -- assemble
          simp only [keyed_group, hfocx, List.map_cons]
          congr 1
          · have hbeq : (_get_table_key x == k) = true := by simp [hk]
            simp only [List.filter_cons, hbeq, if_true]
            rw [← hval]
          · refine htail.trans (List.map_congr_left ?_)
            intro kk hkk
            have hkkne : kk ≠ k := fun h => hnotin (h ▸ hkk)
            have hbeq : (_get_table_key x == kk) = false := by
              rw [hk]
              simp only [beq_eq_false_iff_ne, ne_eq]
              exact Ne.symm hkkne
            simp [List.filter_cons, hbeq]
        · -- x opens a fresh run; its key is absent from xs entirely
          rw [if_neg hk] at hnd ⊢
          rw [List.map_cons] at hnd
          have hx_head := (List.nodup_cons.mp hnd).1
          have hnd_tail := (List.nodup_cons.mp hnd).2
          have hnd' : ((groupby xs).map Prod.fst).Nodup := by
            rw [hg]
            exact hnd_tail
          have hxnotin : _get_table_key x ∉ (groupby xs).map Prod.fst := by
            rw [hg]
            exact hx_head
          have hkg := ih hnd'
          have hfoc : first_occ_keys xs = (groupby xs).map Prod.fst := by
            rw [← keyed_group_keys, ← hkg]
          -- no row of xs carries x's key
          have hnox : ∀ y ∈ xs, _get_table_key y ≠ _get_table_key x := by
            intro y hy h
            exact hxnotin (h ▸ groupby_keys_complete xs y hy)
          have hfocx : first_occ_keys (x :: xs) =
              _get_table_key x :: first_occ_keys xs := by
            simp only [first_occ_keys]
            congr 1
            refine filter_ne_self_of_not_mem _ _ ?_
            rw [hfoc]
            exact hxnotin
          simp only [keyed_group, hfocx, List.map_cons]
          congr 1
          · -- the fresh group is exactly [x]
            have hnil : xs.filter
                (fun r => _get_table_key r == _get_table_key x) = [] := by
              refine List.filter_eq_nil_iff.mpr (fun a ha => ?_)
              simp [hnox a ha]
            simp [List.filter_cons, hnil]
          · -- the remaining groups are untouched by x
            have hbase : (k, g) :: rest = (first_occ_keys xs).map
                (fun kk => (kk, xs.filter (fun r => _get_table_key r == kk))) := by
              rw [← hg, hkg, keyed_group]
            refine hbase.trans (List.map_congr_left ?_)
            intro kk hkk
            have hkkne : kk ≠ _get_table_key x := by
              intro h
              rw [hfoc] at hkk
              exact hxnotin (h ▸ hkk)
            have hbeq : (_get_table_key x == kk) = false := by
              simp only [beq_eq_false_iff_ne, ne_eq]
              exact Ne.symm hkkne
            simp [List.filter_cons, hbeq]

/-- **C1, witness.**  On the sorted row order the hypothesis holds and the
sequential grouping equals the keyed accumulation. -/
theorem c1_grouping_amended_witness :
    ((groupby c1_rows_sorted).map Prod.fst).Nodup ∧
    groupby c1_rows_sorted = keyed_group c1_rows_sorted :=
  ⟨by decide, c1_grouping_amended c1_rows_sorted (by decide)⟩

/-- **C1, counterexample.**  Permuting the column rows returned by catalog
introspection changes the emitted entities: on the sorted order table `A` is
emitted with both of its columns, on the interleaved permutation no emitted
entity carries both columns (the `itertools.groupby` grouping splits `A` into
two groups), so the emitted `(identifier, column contents)` sets differ. -/
theorem c1_counterexample :
    List.Perm c1_rows_perm c1_rows_sorted ∧
    ("s.A", [rowA1, rowA2]) ∈
      presto_loop_tables_emitted allowAll allowAll c1_rows_sorted ∧
    ("s.A", [rowA1, rowA2]) ∉
      presto_loop_tables_emitted allowAll allowAll c1_rows_perm := by
  refine ⟨?_, by decide, by decide⟩
  exact List.Perm.cons rowA1 (List.Perm.swap rowA2 rowB [])

end PrestoOnHive

namespace SqlCommon

/-- Within one schema, `get_identifier` is injective in the entity name. -/
theorem get_identifier_inj (schema t₁ t₂ : String)
    (h : get_identifier schema t₁ = get_identifier schema t₂) : t₁ = t₂ := by
  unfold get_identifier at h
  have h' := congrArg String.data h
  simp [String.data_append] at h'
  exact String.ext h'

/-- `_process_view` computes `view_result`. -/
theorem _process_view_fst (insp : Inspector) (schema view dataset_name : String)
    (report : Report) :
    (_process_view insp schema view dataset_name report).1 =
      view_result insp schema view dataset_name := by
  unfold _process_view view_result _process_view_rest view_rest_result
  cases hc : insp.columns schema view with
  | ok cols =>
    cases hv : insp.view_definition schema view with
    | ok v => cases v <;> simp
    | error e => cases e <;> simp
  | error e =>
    cases e with
    | keyError =>
      cases hv : insp.view_definition schema view with
      | ok v => cases v <;> simp
      | error e' => cases e' <;> simp
    | notImplementedError => simp
    | otherError m => simp

/-- A successful `view_result` is the three view work units for some fields
and view-definition text. -/
theorem view_result_ok_shape (insp : Inspector)
    (schema view dataset_name : String) (evs : List WorkUnit)
    (h : view_result insp schema view dataset_name = Except.ok evs) :
    ∃ fields vdef, evs = view_events schema dataset_name fields vdef := by
  unfold view_result view_rest_result at h
  cases hc : insp.columns schema view with
  | ok cols =>
    rw [hc] at h
    cases hv : insp.view_definition schema view with
    | ok v =>
      rw [hv] at h
      cases v with
      | none => exact ⟨_, _, (Except.ok.injEq _ _ ▸ h).symm⟩
      | some val => exact ⟨_, _, (Except.ok.injEq _ _ ▸ h).symm⟩
    | error e =>
      rw [hv] at h
      cases e with
      | keyError => simp at h
      | notImplementedError => exact ⟨_, _, (Except.ok.injEq _ _ ▸ h).symm⟩
      | otherError m => simp at h
  | error e =>
    rw [hc] at h
    cases e with
    | keyError =>
      cases hv : insp.view_definition schema view with
      | ok v =>
        rw [hv] at h
        cases v with
        | none => exact ⟨_, _, (Except.ok.injEq _ _ ▸ h).symm⟩
        | some val => exact ⟨_, _, (Except.ok.injEq _ _ ▸ h).symm⟩
      | error e' =>
        rw [hv] at h
        cases e' with
        | keyError => simp at h
        | notImplementedError => exact ⟨_, _, (Except.ok.injEq _ _ ▸ h).symm⟩
        | otherError m => simp at h
    | notImplementedError => simp at h
    | otherError m => simp at h

/-- The warnings field after `_process_table`, in appended form.  (The
`report_table_scanned` and `report_dropped` transitions leave `warnings`
untouched, so this composes across the loop.) -/
theorem _process_table_warnings (insp : Inspector)
    (schema table dataset_name : String) (report : Report) :
    (_process_table insp schema table dataset_name report).2.warnings =
      report.warnings ++ table_warnings insp schema table dataset_name := by
  rw [_process_table_snd]

/-- Warnings already in the report survive the table loop. -/
theorem loop_tables_go_warnings_mono (insp : Inspector) (cfg : SQLConfig)
    (schema : String) :
    ∀ (ts seen : List String) (report : Report) (w : String × String),
      w ∈ report.warnings →
      w ∈ (loop_tables_go insp cfg schema ts seen report).2.warnings := by
  intro ts
  induction ts with
  | nil => intro seen report w hw; simpa [loop_tables_go] using hw
  | cons t ts ih =>
    intro seen report w hw
    simp only [loop_tables_go]
    by_cases hseen : get_identifier schema t ∈ seen
    · rw [if_pos hseen]
      exact ih seen report w hw
    · rw [if_neg hseen]
      by_cases hpat : cfg.table_pattern (get_identifier schema t) = true
      · rw [if_neg (by simp [hpat])]
        cases hpt : _process_table insp schema t (get_identifier schema t)
            (report_table_scanned report) with
        | mk res rep =>
          have hrepw : rep.warnings = report.warnings ++
              table_warnings insp schema t (get_identifier schema t) := by
            have := _process_table_warnings insp schema t
              (get_identifier schema t) (report_table_scanned report)
            rw [hpt] at this
            exact this
          have hrep : w ∈ rep.warnings := by
            rw [hrepw]
            exact List.mem_append_left _ hw
          cases res with
          | error e =>
            exact ih _ _ w (by
              simp only [report_warning]
              exact List.mem_append_left _ hrep)
          | ok evs =>
            exact ih _ _ w hrep
      · rw [if_pos (by simp [hpat])]
        exact ih _ _ w (by
          simp only [report_dropped, report_table_scanned]
          exact hw)

/-- The first unseen, pattern-allowed occurrence of a table is processed: a
successful `table_result`'s work units are all emitted, and the table's
`loop_table_warnings` are all recorded. -/
theorem loop_tables_go_first (insp : Inspector) (cfg : SQLConfig)
    (schema : String) :
    ∀ (ts seen : List String) (report : Report) (t : String),
      t ∈ ts → get_identifier schema t ∉ seen →
      cfg.table_pattern (get_identifier schema t) = true →
      ((∀ evs, table_result insp schema t (get_identifier schema t) =
          Except.ok evs →
          ∀ e ∈ evs, e ∈ (loop_tables_go insp cfg schema ts seen report).1) ∧
       (∀ w ∈ loop_table_warnings insp schema t,
          w ∈ (loop_tables_go insp cfg schema ts seen report).2.warnings)) := by
  intro ts
  induction ts with
  | nil => intro seen report t ht; simp at ht
  | cons x ts ih =>
    intro seen report t ht hseen hpat
    by_cases hxt : x = t
    · subst hxt
      simp only [loop_tables_go]
      rw [if_neg hseen, if_neg (by simp [hpat])]
      cases hpt : _process_table insp schema x (get_identifier schema x)
          (report_table_scanned report) with
      | mk res rep =>
        have hres : res = table_result insp schema x (get_identifier schema x) := by
          have := _process_table_fst insp schema x (get_identifier schema x)
            (report_table_scanned report)
          rw [hpt] at this
          exact this
        have hrepw : rep.warnings = report.warnings ++
            table_warnings insp schema x (get_identifier schema x) := by
          have := _process_table_warnings insp schema x (get_identifier schema x)
            (report_table_scanned report)
          rw [hpt] at this
          exact this
        cases res with
        | ok evs =>
          constructor
          · intro evs' hevs' e he
            rw [← hres] at hevs'
            cases hevs'
            exact List.mem_append_left _ he
          · intro w hw
            have hw' : w ∈ table_warnings insp schema x
                (get_identifier schema x) := by
              unfold loop_table_warnings at hw
              rw [← hres] at hw
              simpa using hw
            exact loop_tables_go_warnings_mono insp cfg schema ts _ rep w
              (by rw [hrepw]; exact List.mem_append_right _ hw')
        | error e =>
          constructor
          · intro evs' hevs' ev hev
            rw [← hres] at hevs'
            cases hevs'
          · intro w hw
            refine loop_tables_go_warnings_mono insp cfg schema ts _ _ w ?_
            simp only [report_warning, hrepw]
            unfold loop_table_warnings at hw
            rw [← hres] at hw
            simp only [List.mem_append] at hw ⊢
            cases hw with
            | inl h => exact Or.inl (Or.inr h)
            | inr h => exact Or.inr (by simpa using h)
    · have hne : get_identifier schema x ≠ get_identifier schema t :=
        fun h => hxt (get_identifier_inj schema x t h)
      have ht' : t ∈ ts := by
        cases List.mem_cons.mp ht with
        | inl h => exact absurd h.symm hxt
        | inr h => exact h
      simp only [loop_tables_go]
      by_cases hseenx : get_identifier schema x ∈ seen
      · rw [if_pos hseenx]
        exact ih seen report t ht' hseen hpat
      · rw [if_neg hseenx]
        have hseen' : get_identifier schema t ∉
            get_identifier schema x :: seen := by
          intro h
          cases List.mem_cons.mp h with
          | inl h => exact hne h.symm
          | inr h => exact hseen h
        by_cases hpatx : cfg.table_pattern (get_identifier schema x) = true
        · rw [if_neg (by simp [hpatx])]
          cases hpt : _process_table insp schema x (get_identifier schema x)
              (report_table_scanned report) with
          | mk res rep =>
            cases res with
            | ok evs =>
              have hrec := ih (get_identifier schema x :: seen) rep t ht'
                hseen' hpat
              exact ⟨fun evs' hevs' e he =>
                  List.mem_append_right _ (hrec.1 evs' hevs' e he),
                hrec.2⟩
            | error e =>
              exact ih _ _ t ht' hseen' hpat
        · rw [if_pos (by simp [hpatx])]
          exact ih _ _ t ht' hseen' hpat

/-- Every dataset-snapshot work unit the table loop emits belongs to the
loop's schema, stems from some listed table whose primary-key fetch
succeeded, and carries that table's computed fields. -/
theorem loop_tables_go_dataset_sound (insp : Inspector) (cfg : SQLConfig)
    (schema : String) :
    ∀ (ts seen : List String) (report : Report) (s' n : String)
      (f : Option (List SchemaField)),
      WorkUnit.dataset s' n f ∈ (loop_tables_go insp cfg schema ts seen report).1 →
      s' = schema ∧ ∃ t ∈ ts, n = get_identifier schema t ∧
        ∃ pk, insp.pk_constraint schema t = Except.ok pk ∧
          f = some (table_fields insp schema t pk) := by
  intro ts
  induction ts with
  | nil => intro seen report s' n f h; simp [loop_tables_go] at h
  | cons t ts ih =>
    intro seen report s' n f h
    simp only [loop_tables_go] at h
    by_cases hseen : get_identifier schema t ∈ seen
    · rw [if_pos hseen] at h
      obtain ⟨hs, t', ht', rest⟩ := ih seen report s' n f h
      exact ⟨hs, t', List.mem_cons_of_mem _ ht', rest⟩
    · rw [if_neg hseen] at h
      by_cases hpat : cfg.table_pattern (get_identifier schema t) = true
      · rw [if_neg (by simp [hpat])] at h
        cases hpt : _process_table insp schema t (get_identifier schema t)
            (report_table_scanned report) with
        | mk res rep =>
          rw [hpt] at h
          have hres : res = table_result insp schema t
              (get_identifier schema t) := by
            have := _process_table_fst insp schema t (get_identifier schema t)
              (report_table_scanned report)
            rw [hpt] at this
            exact this
          cases res with
          | ok evs =>
            simp only [List.mem_append] at h
            cases h with
            | inl hin =>
              unfold table_result at hres
              cases hpk : insp.pk_constraint schema t with
              | error e =>
                rw [hpk] at hres
                simp at hres
              | ok pk =>
                rw [hpk] at hres
                simp only [Except.ok.injEq] at hres
                rw [hres] at hin
                simp only [List.mem_cons, List.mem_singleton] at hin
                cases hin with
                | inl hc => simp at hc
                | inr hin =>
                  cases hin with
                  | inl hd =>
                    have h1 : s' = schema := by
                      have := congrArg (fun ev => match ev with
                        | WorkUnit.dataset s _ _ => s
                        | _ => "") hd
                      simpa using this
                    have h2 : n = get_identifier schema t := by
                      have := congrArg (fun ev => match ev with
                        | WorkUnit.dataset _ m _ => m
                        | _ => "") hd
                      simpa using this
                    have h3 : f = some (table_fields insp schema t pk) := by
                      have := congrArg (fun ev => match ev with
                        | WorkUnit.dataset _ _ ff => ff
                        | _ => none) hd
                      simpa using this
                    exact ⟨h1, t, List.mem_cons_self _ _, h2, pk, hpk, h3⟩
                  | inr hfalse => simp at hfalse
            | inr hin =>
              obtain ⟨hs, t', ht', rest⟩ := ih _ _ s' n f hin
              exact ⟨hs, t', List.mem_cons_of_mem _ ht', rest⟩
          | error e =>
            obtain ⟨hs, t', ht', rest⟩ := ih _ _ s' n f h
            exact ⟨hs, t', List.mem_cons_of_mem _ ht', rest⟩
      · rw [if_pos (by simp [hpat])] at h
        obtain ⟨hs, t', ht', rest⟩ := ih _ _ s' n f h
        exact ⟨hs, t', List.mem_cons_of_mem _ ht', rest⟩

/-- Every pattern-allowed occurrence of a view whose `view_result` succeeds
gets its work units emitted (there is no seen-set in `loop_views`). -/
theorem loop_views_go_first (insp : Inspector) (cfg : SQLConfig)
    (schema : String) :
    ∀ (vs : List String) (report : Report) (v : String),
      v ∈ vs → cfg.view_pattern (get_identifier schema v) = true →
      ∀ evs, view_result insp schema v (get_identifier schema v) =
        Except.ok evs →
      ∀ e ∈ evs, e ∈ (loop_views_go insp cfg schema vs report).1 := by
  intro vs
  induction vs with
  | nil => intro report v hv; simp at hv
  | cons x vs ih =>
    intro report v hv hpat evs hres e he
    simp only [loop_views_go]
    by_cases hxv : x = v
    · subst hxv
      rw [if_neg (by simp [hpat])]
      cases hpv : _process_view insp schema x (get_identifier schema x)
          (report_view_scanned report) with
      | mk res rep =>
        have hres' : res = view_result insp schema x (get_identifier schema x) := by
          have := _process_view_fst insp schema x (get_identifier schema x)
            (report_view_scanned report)
          rw [hpv] at this
          exact this
        rw [hres] at hres'
        cases res with
        | ok evs' =>
          simp only [Except.ok.injEq] at hres'
          rw [hres']
          exact List.mem_append_left _ he
        | error e' => simp at hres'
    · have hv' : v ∈ vs := by
        cases List.mem_cons.mp hv with
        | inl h => exact absurd h.symm hxv
        | inr h => exact h
      by_cases hpatx : cfg.view_pattern (get_identifier schema x) = true
      · rw [if_neg (by simp [hpatx])]
        cases hpv : _process_view insp schema x (get_identifier schema x)
            (report_view_scanned report) with
        | mk res rep =>
          cases res with
          | ok evs' =>
            exact List.mem_append_right _ (ih rep v hv' hpat evs hres e he)
          | error e' => exact ih _ v hv' hpat evs hres e he
      · rw [if_pos (by simp [hpatx])]
        exact ih _ v hv' hpat evs hres e he

/-- Every dataset-snapshot work unit the view loop emits belongs to the
loop's schema. -/
theorem loop_views_go_dataset_schema (insp : Inspector) (cfg : SQLConfig)
    (schema : String) :
    ∀ (vs : List String) (report : Report) (s' n : String)
      (f : Option (List SchemaField)),
      WorkUnit.dataset s' n f ∈ (loop_views_go insp cfg schema vs report).1 →
      s' = schema := by
  intro vs
  induction vs with
  | nil => intro report s' n f h; simp [loop_views_go] at h
  | cons x vs ih =>
    intro report s' n f h
    simp only [loop_views_go] at h
    by_cases hpatx : cfg.view_pattern (get_identifier schema x) = true
    · rw [if_neg (by simp [hpatx])] at h
      cases hpv : _process_view insp schema x (get_identifier schema x)
          (report_view_scanned report) with
      | mk res rep =>
        rw [hpv] at h
        cases res with
        | ok evs =>
          simp only [List.mem_append] at h
          cases h with
          | inl hin =>
            have hres : view_result insp schema x (get_identifier schema x) =
                Except.ok evs := by
              have := _process_view_fst insp schema x (get_identifier schema x)
                (report_view_scanned report)
              rw [hpv] at this
              exact this.symm
            obtain ⟨fields, vdef, hevs⟩ := view_result_ok_shape insp schema x
              (get_identifier schema x) evs hres
            rw [hevs] at hin
            simp only [view_events, List.mem_cons, List.mem_singleton] at hin
            rcases hin with h1 | h2 | h3 | hf
            · simp at h1
            · have := congrArg (fun ev => match ev with
                | WorkUnit.dataset s _ _ => s
                | _ => "") h2
              simpa using this
            · simp at h3
            · simp at hf
          | inr hin => exact ih _ s' n f hin
        | error e => exact ih _ s' n f h
    · rw [if_pos (by simp [hpatx])] at h
      exact ih _ s' n f h

/-- Warnings already in the report survive the view loop. -/
theorem loop_views_go_warnings_mono (insp : Inspector) (cfg : SQLConfig)
    (schema : String) :
    ∀ (vs : List String) (report : Report) (w : String × String),
      w ∈ report.warnings →
      w ∈ (loop_views_go insp cfg schema vs report).2.warnings := by
  intro vs
  induction vs with
  | nil => intro report w hw; simpa [loop_views_go] using hw
  | cons x vs ih =>
    intro report w hw
    simp only [loop_views_go]
    by_cases hpatx : cfg.view_pattern (get_identifier schema x) = true
    · rw [if_neg (by simp [hpatx])]
      cases hpv : _process_view insp schema x (get_identifier schema x)
          (report_view_scanned report) with
      | mk res rep =>
        have hrep : w ∈ rep.warnings := by
          have hv : ∀ (r : Report), w ∈ r.warnings →
              w ∈ (_process_view insp schema x (get_identifier schema x)
                r).2.warnings := by
            intro r hr
            unfold _process_view _process_view_rest
            cases insp.columns schema x with
            | ok cols =>
              cases insp.view_definition schema x with
              | ok v => cases v <;> simpa
              | error e => cases e <;> simpa
            | error e =>
              cases e with
              | keyError =>
                cases insp.view_definition schema x with
                | ok v =>
                  cases v <;> simp [report_warning] <;> exact Or.inl hr
                | error e' =>
                  cases e' <;> simp [report_warning] <;> exact Or.inl hr
              | notImplementedError => simpa
              | otherError m => simpa
          have := hv (report_view_scanned report) hw
          rw [hpv] at this
          exact this
        cases res with
        | ok evs => exact ih rep w hrep
        | error e =>
          exact ih _ w (by
            simp only [report_warning]
            exact List.mem_append_left _ hrep)
    · rw [if_pos (by simp [hpatx])]
      exact ih _ w hw

/-- **C10.**  `_process_view`'s view-definition handling, observed through
`loop_views`: when the dialect's `get_view_definition` raises
`NotImplementedError` or returns `None`, the view is still emitted and its
view-properties work unit carries `materialized=False` and an empty
view-definition text; when it returns a value, the text is the value's
string conversion. -/
theorem c10_view_definition_fallback (insp : Inspector) (cfg : SQLConfig)
    (schema view : String) (cols : List Column) (report : Report)
    (hv : view ∈ insp.view_names schema)
    (hpat : cfg.view_pattern (get_identifier schema view) = true)
    (hcols : insp.columns schema view = Except.ok cols) :
    ((insp.view_definition schema view =
        Except.error PyErr.notImplementedError ∨
      insp.view_definition schema view = Except.ok none) →
      WorkUnit.dataset schema (get_identifier schema view)
          (some (get_schema_fields cols none)) ∈
        (loop_views insp cfg schema report).1 ∧
      WorkUnit.viewProps (get_identifier schema view)
          (ViewProperties.mk false "SQL" "") ∈
        (loop_views insp cfg schema report).1) ∧
    (∀ val, insp.view_definition schema view = Except.ok (some val) →
      WorkUnit.dataset schema (get_identifier schema view)
          (some (get_schema_fields cols none)) ∈
        (loop_views insp cfg schema report).1 ∧
      WorkUnit.viewProps (get_identifier schema view)
          (ViewProperties.mk false "SQL" val.str) ∈
        (loop_views insp cfg schema report).1) := by
  constructor
  · intro hvd
    have hres : view_result insp schema view (get_identifier schema view) =
        Except.ok (view_events schema (get_identifier schema view)
          (some (get_schema_fields cols none)) "") := by
      unfold view_result view_rest_result
      cases hvd with
      | inl h => rw [hcols, h]
      | inr h => rw [hcols, h]
    constructor
    · exact loop_views_go_first insp cfg schema (insp.view_names schema)
        report view hv hpat _ hres _ (by simp [view_events])
    · exact loop_views_go_first insp cfg schema (insp.view_names schema)
        report view hv hpat _ hres _ (by simp [view_events])
  · intro val hvd
    have hres : view_result insp schema view (get_identifier schema view) =
        Except.ok (view_events schema (get_identifier schema view)
          (some (get_schema_fields cols none)) val.str) := by
      unfold view_result view_rest_result
      rw [hcols, hvd]
    constructor
    · exact loop_views_go_first insp cfg schema (insp.view_names schema)
        report view hv hpat _ hres _ (by simp [view_events])
    · exact loop_views_go_first insp cfg schema (insp.view_names schema)
        report view hv hpat _ hres _ (by simp [view_events])

/-- **C10, witness.**  The three outcomes on a concrete catalog:
`NotImplementedError` (view `v1`), `None` (view `v2`), and a value
(view `v3`). -/
theorem c10_view_definition_fallback_witness :
    WorkUnit.viewProps "s.v1" (ViewProperties.mk false "SQL" "") ∈
      (loop_views c10_insp cfgAll "s" report0).1 ∧
    WorkUnit.viewProps "s.v2" (ViewProperties.mk false "SQL" "") ∈
      (loop_views c10_insp cfgAll "s" report0).1 ∧
    WorkUnit.viewProps "s.v3"
        (ViewProperties.mk false "SQL" "SELECT * FROM foo") ∈
      (loop_views c10_insp cfgAll "s" report0).1 := by
  refine ⟨?_, ?_, ?_⟩
  · exact ((c10_view_definition_fallback c10_insp cfgAll "s" "v1" [colId]
      report0 (by decide) rfl rfl).1 (Or.inl rfl)).2
  · exact ((c10_view_definition_fallback c10_insp cfgAll "s" "v2" [colId]
      report0 (by decide) rfl rfl).1 (Or.inr rfl)).2
  · exact ((c10_view_definition_fallback c10_insp cfgAll "s" "v3" [colId]
      report0 (by decide) rfl rfl).2 (ViewDefValue.mk "SELECT * FROM foo")
      rfl).2

/-- **C6, amended.**  `isPartOfKey` is set on a field iff the primary-key
result is a dict whose `constrained_columns` list contains the column name
(so a non-dict result — e.g. hive's list — non-fatally leaves every field's
flag false); but when `get_pk_constraint` raises, the exception is caught at
the table-loop level: the table is skipped — no dataset work unit is emitted
for it — and an `Ingestion error` warning is recorded. -/
theorem c6_is_key_column (insp : Inspector) (cfg : SQLConfig)
    (schema t : String) (report : Report) :
    (∀ (column : Column) (pk : Option PKConstraints) (f : SchemaField),
       f ∈ get_schema_fields_for_column column pk →
       (f.isPartOfKey = true ↔
         ∃ cc, pk = some (PKConstraints.dict cc) ∧ column.name ∈ cc)) ∧
    (∀ e, insp.pk_constraint schema t = Except.error e →
       t ∈ insp.table_names schema →
       cfg.table_pattern (get_identifier schema t) = true →
       ((∀ f, WorkUnit.dataset schema (get_identifier schema t) f ∉
           (loop_tables insp cfg schema report).1) ∧
        (get_identifier schema t, "Ingestion error: " ++ pyErrMsg e) ∈
          (loop_tables insp cfg schema report).2.warnings)) := by
  constructor
  · intro column pk f hf
    unfold get_schema_fields_for_column at hf
    match pk with
    | none =>
      simp at hf
      subst hf
      simp
    | some PKConstraints.nonDict =>
      simp at hf
      subst hf
      simp
    | some (PKConstraints.dict cc) =>
      by_cases hmem : column.name ∈ cc
      · simp [hmem] at hf
        subst hf
        constructor
        · intro _
          exact ⟨cc, rfl, hmem⟩
        · intro _
          rfl
      · simp [hmem] at hf
        subst hf
        constructor
        · intro hfalse
          exact absurd hfalse (by simp)
        · rintro ⟨cc', hcc', hmem'⟩
          simp only [Option.some.injEq, PKConstraints.dict.injEq] at hcc'
          exact absurd (hcc' ▸ hmem') hmem
  · intro e hpk ht hpat
    constructor
    · intro f hmem
      obtain ⟨-, t', ht', hn, pk, hpk', -⟩ :=
        loop_tables_go_dataset_sound insp cfg schema
          (insp.table_names schema) [] report schema
          (get_identifier schema t) f hmem
      have : t' = t := get_identifier_inj schema t' t hn.symm
      rw [this] at hpk'
      rw [hpk'] at hpk
      exact Except.noConfusion hpk
    · have hres : table_result insp schema t (get_identifier schema t) =
          Except.error e := by
        unfold table_result
        rw [hpk]
      refine (loop_tables_go_first insp cfg schema (insp.table_names schema)
        [] report t ht (by simp) hpat).2 _ ?_
      unfold loop_table_warnings
      rw [hres]
      exact List.mem_append_right _ (List.mem_singleton_self _)

/-- **C6, witness.**  On the concrete catalog whose table `t1` raises during
the primary-key lookup, no dataset work unit for `s.t1` is emitted and the
`Ingestion error` warning is recorded. -/
theorem c6_is_key_column_witness :
    WorkUnit.dataset "s" "s.t1" (some []) ∉
      (loop_tables c6_insp cfgAll "s" report0).1 ∧
    ("s.t1", "Ingestion error: pk boom") ∈
      (loop_tables c6_insp cfgAll "s" report0).2.warnings := by
  have h := (c6_is_key_column c6_insp cfgAll "s" "t1" report0).2
    (PyErr.otherError "pk boom") rfl (by decide) rfl
  exact ⟨h.1 (some []), h.2⟩

/-- **C6, counterexample.**  The claim's "primary-key lookup failures are
non-fatal and the table is still emitted" fails when the lookup raises: on
this catalog the single table `t1` yields no dataset work unit at all —
only the `Ingestion error` warning. -/
theorem c6_counterexample :
    dataset_names (loop_tables c6_insp cfgAll "s" report0).1 = [] ∧
    (loop_tables c6_insp cfgAll "s" report0).2.warnings =
      [("s.t1", "Ingestion error: pk boom")] := by
  refine ⟨by decide, by decide⟩

/-- Pattern-allowed schemas survive `get_allowed_schemas`. -/
theorem get_allowed_schemas_go_mem (cfg : SQLConfig) :
    ∀ (ss : List String) (report : Report) (s : String),
      s ∈ ss → cfg.schema_pattern s = true →
      s ∈ (get_allowed_schemas_go cfg ss report).1 := by
  intro ss
  induction ss with
  | nil => intro report s hs; simp at hs
  | cons x ss ih =>
    intro report s hs hp
    simp only [get_allowed_schemas_go]
    by_cases hx : cfg.schema_pattern x = true
    · rw [if_pos hx]
      cases List.mem_cons.mp hs with
      | inl h => exact h ▸ List.mem_cons_self _ _
      | inr h => exact List.mem_cons_of_mem _ (ih report s h hp)
    · rw [if_neg hx]
      cases List.mem_cons.mp hs with
      | inl h => exact absurd (h ▸ hp) hx
      | inr h => exact ih _ s h hp

/-- `get_allowed_schemas` only returns listed schemas. -/
theorem get_allowed_schemas_go_sub (cfg : SQLConfig) :
    ∀ (ss : List String) (report : Report) (s : String),
      s ∈ (get_allowed_schemas_go cfg ss report).1 → s ∈ ss := by
  intro ss
  induction ss with
  | nil => intro report s h; simp [get_allowed_schemas_go] at h
  | cons x ss ih =>
    intro report s h
    simp only [get_allowed_schemas_go] at h
    by_cases hx : cfg.schema_pattern x = true
    · rw [if_pos hx] at h
      cases List.mem_cons.mp h with
      | inl h' => exact h' ▸ List.mem_cons_self _ _
      | inr h' => exact List.mem_cons_of_mem _ (ih _ s h')
    · rw [if_neg hx] at h
      exact List.mem_cons_of_mem _ (ih _ s h)

/-- The profiler-request loop records no warnings. -/
theorem loop_profiler_requests_go_warnings (cfg : SQLConfig) (schema : String) :
    ∀ (ts seen : List String) (report : Report),
      (loop_profiler_requests_go cfg schema ts seen report).2.warnings =
        report.warnings := by
  intro ts
  induction ts with
  | nil => intro seen report; simp [loop_profiler_requests_go]
  | cons t ts ih =>
    intro seen report
    simp only [loop_profiler_requests_go]
    by_cases he : is_dataset_eligible_for_profiling (get_identifier schema t)
        cfg cfg.profile_candidates = true
    · rw [if_neg (by simp [he])]
      by_cases hseen : get_identifier schema t ∈ seen
      · rw [if_pos hseen]
        exact ih seen report
      · rw [if_neg hseen]
        by_cases hmiss : get_identifier schema t ∈
            warnings_under report MISSING_COLUMN_INFO
        · rw [if_pos hmiss]
          exact ih _ report
        · rw [if_neg hmiss]
          exact ih _ (report_entity_profiled report)
    · rw [if_pos (by simp [he])]
      by_cases hd : cfg.report_dropped_profiles = true
      · rw [if_pos hd]
        exact ih seen _
      · rw [if_neg hd]
        exact ih seen report

/-- The warnings after a whole per-schema pass are exactly the warnings
after its table and view loops. -/
theorem process_schema_warnings_eq_post (insp : Inspector) (cfg : SQLConfig)
    (db_name schema : String) (report : Report) :
    (process_schema insp cfg db_name schema report).2.2.warnings =
      (post_tv_report insp cfg schema report).warnings := by
  simp only [process_schema, post_tv_report]
  by_cases hp : cfg.profiling_enabled = true
  · rw [if_pos hp]
    exact loop_profiler_requests_go_warnings cfg schema _ _ _
  · rw [if_neg hp]

/-- Warnings already in the report survive the table and view loops. -/
theorem post_tv_report_warnings_mono (insp : Inspector) (cfg : SQLConfig)
    (schema : String) (report : Report) (w : String × String)
    (hw : w ∈ report.warnings) :
    w ∈ (post_tv_report insp cfg schema report).warnings := by
  simp only [post_tv_report]
  by_cases hv : cfg.include_views = true
  · rw [if_pos hv]
    refine loop_views_go_warnings_mono insp cfg schema _ _ w ?_
    by_cases ht : cfg.include_tables = true
    · rw [if_pos ht]
      exact loop_tables_go_warnings_mono insp cfg schema _ _ _ w hw
    · rw [if_neg ht]
      exact hw
  · rw [if_neg hv]
    by_cases ht : cfg.include_tables = true
    · rw [if_pos ht]
      exact loop_tables_go_warnings_mono insp cfg schema _ _ _ w hw
    · rw [if_neg ht]
      exact hw

/-- Warnings the table loop records are present after the per-schema pass. -/
theorem post_tv_report_warnings_of_tables (insp : Inspector) (cfg : SQLConfig)
    (schema : String) (report : Report) (w : String × String)
    (hinc : cfg.include_tables = true)
    (hw : w ∈ (loop_tables insp cfg schema report).2.warnings) :
    w ∈ (post_tv_report insp cfg schema report).warnings := by
  simp only [post_tv_report]
  rw [if_pos hinc]
  by_cases hv : cfg.include_views = true
  · rw [if_pos hv]
    exact loop_views_go_warnings_mono insp cfg schema _ _ w hw
  · rw [if_neg hv]
    exact hw

/-- Work units of one schema's table loop appear in its per-schema pass. -/
theorem process_schema_events_tables (insp : Inspector) (cfg : SQLConfig)
    (db_name schema : String) (report : Report) (e : WorkUnit)
    (hinc : cfg.include_tables = true)
    (he : e ∈ (loop_tables insp cfg schema report).1) :
    e ∈ (process_schema insp cfg db_name schema report).1 := by
  simp only [process_schema]
  rw [if_pos hinc]
  exact List.mem_cons_of_mem _ (List.mem_append_left _ he)

/-- Work units of a listed schema's pass appear in the whole walk (stated
for per-schema facts that hold at every incoming report, since the report is
threaded through earlier schemas). -/
theorem run_schemas_events_mem (insp : Inspector) (cfg : SQLConfig)
    (db_name : String) :
    ∀ (schemas : List String) (report : Report) (s : String) (e : WorkUnit),
      s ∈ schemas →
      (∀ r, e ∈ (process_schema insp cfg db_name s r).1) →
      e ∈ (run_schemas insp cfg db_name schemas report).1 := by
  intro schemas
  induction schemas with
  | nil => intro report s e hs; simp at hs
  | cons x ss ih =>
    intro report s e hs he
    simp only [run_schemas]
    cases List.mem_cons.mp hs with
    | inl h =>
      exact List.mem_append_left _ (h ▸ he report)
    | inr h =>
      exact List.mem_append_right _ (ih _ s e h he)

/-- Warnings survive the whole walk. -/
theorem run_schemas_warnings_mono (insp : Inspector) (cfg : SQLConfig)
    (db_name : String) :
    ∀ (schemas : List String) (report : Report) (w : String × String),
      w ∈ report.warnings →
      w ∈ (run_schemas insp cfg db_name schemas report).2.2.warnings := by
  intro schemas
  induction schemas with
  | nil => intro report w hw; simpa [run_schemas] using hw
  | cons x ss ih =>
    intro report w hw
    simp only [run_schemas]
    refine ih _ w ?_
    rw [process_schema_warnings_eq_post]
    exact post_tv_report_warnings_mono insp cfg x report w hw

/-- A warning recorded in every pass of a listed schema is present after the
whole walk. -/
theorem run_schemas_warnings_insert (insp : Inspector) (cfg : SQLConfig)
    (db_name : String) :
    ∀ (schemas : List String) (report : Report) (s : String)
      (w : String × String),
      s ∈ schemas →
      (∀ r, w ∈ (process_schema insp cfg db_name s r).2.2.warnings) →
      w ∈ (run_schemas insp cfg db_name schemas report).2.2.warnings := by
  intro schemas
  induction schemas with
  | nil => intro report s w hs; simp at hs
  | cons x ss ih =>
    intro report s w hs hw
    simp only [run_schemas]
    cases List.mem_cons.mp hs with
    | inl h =>
      exact run_schemas_warnings_mono insp cfg db_name ss _ w (h ▸ hw report)
    | inr h =>
      exact ih _ s w h hw

/-- **C3, amended.**  When column introspection for one table raises, the
run still emits the database and schema containers and every pattern-allowed
table whose primary-key fetch succeeds — including the failing table itself,
which is emitted schema-less (empty field list) with a `_get_columns` warning
recorded, rather than excluded. -/
theorem c3_column_failure_isolated (insp : Inspector) (cfg : SQLConfig)
    (db_name schema t : String) (e : PyErr) (report : Report)
    (pk : PKConstraints)
    (hinc : cfg.include_tables = true)
    (hs : schema ∈ insp.schema_names)
    (hsp : cfg.schema_pattern schema = true)
    (ht : t ∈ insp.table_names schema)
    (htp : cfg.table_pattern (get_identifier schema t) = true)
    (hcols : insp.columns schema t = Except.error e)
    (hpk : insp.pk_constraint schema t = Except.ok pk) :
    WorkUnit.dbContainer db_name ∈
      (get_workunits_internal insp cfg db_name report).1 ∧
    WorkUnit.schemaContainer db_name schema ∈
      (get_workunits_internal insp cfg db_name report).1 ∧
    WorkUnit.dataset schema (get_identifier schema t) (some []) ∈
      (get_workunits_internal insp cfg db_name report).1 ∧
    (get_identifier schema t,
      "unable to get column information due to an error -> " ++ pyErrMsg e) ∈
      (get_workunits_internal insp cfg db_name report).2.2.warnings ∧
    (∀ t' pk', t' ∈ insp.table_names schema →
      cfg.table_pattern (get_identifier schema t') = true →
      insp.pk_constraint schema t' = Except.ok pk' →
      WorkUnit.dataset schema (get_identifier schema t')
        (some (table_fields insp schema t' pk')) ∈
        (get_workunits_internal insp cfg db_name report).1) := by
  have hallowed : ∀ r, schema ∈ (get_allowed_schemas_go cfg
      insp.schema_names r).1 :=
    fun r => get_allowed_schemas_go_mem cfg insp.schema_names r schema hs hsp
  have hemit : ∀ t' pk', t' ∈ insp.table_names schema →
      cfg.table_pattern (get_identifier schema t') = true →
      insp.pk_constraint schema t' = Except.ok pk' →
      WorkUnit.dataset schema (get_identifier schema t')
        (some (table_fields insp schema t' pk')) ∈
        (get_workunits_internal insp cfg db_name report).1 := by
    intro t' pk' ht' htp' hpk'
    have hres : table_result insp schema t' (get_identifier schema t') =
        Except.ok [WorkUnit.containment (get_identifier schema t'),
          WorkUnit.dataset schema (get_identifier schema t')
            (some (table_fields insp schema t' pk'))] := by
      unfold table_result
      rw [hpk']
    have hloop : ∀ r, WorkUnit.dataset schema (get_identifier schema t')
        (some (table_fields insp schema t' pk')) ∈
        (loop_tables insp cfg schema r).1 := by
      intro r
      exact (loop_tables_go_first insp cfg schema (insp.table_names schema)
        [] r t' ht' (by simp) htp').1 _ hres _ (by simp)
    unfold get_workunits_internal
    refine List.mem_cons_of_mem _ ?_
    exact run_schemas_events_mem insp cfg db_name _ _ schema _
      (hallowed _)
      (fun r => process_schema_events_tables insp cfg db_name schema r _
        hinc (hloop r))
  refine ⟨?_, ?_, ?_, ?_, hemit⟩
  · exact List.mem_cons_self _ _
  · unfold get_workunits_internal
    refine List.mem_cons_of_mem _ ?_
    refine run_schemas_events_mem insp cfg db_name _ _ schema _
      (hallowed _) (fun r => ?_)
    unfold process_schema
    exact List.mem_cons_self _ _
  · have := hemit t pk ht htp hpk
    have hfields : table_fields insp schema t pk = [] := by
      unfold table_fields
      rw [hcols]
      rfl
    rw [hfields] at this
    exact this
  · unfold get_workunits_internal
    refine run_schemas_warnings_insert insp cfg db_name _ _ schema _
      (hallowed _) (fun r => ?_)
    rw [process_schema_warnings_eq_post]
    refine post_tv_report_warnings_of_tables insp cfg schema r _ hinc ?_
    refine (loop_tables_go_first insp cfg schema (insp.table_names schema)
      [] r t ht (by simp) htp).2 _ ?_
    unfold loop_table_warnings table_warnings
    rw [hcols]
    simp

/-- **C3, witness.**  The spec's scenario-5 catalog: `bad`'s column fetch
raises, yet `bad`, `foo` and `baz` are all emitted and the containers are
present. -/
theorem c3_column_failure_isolated_witness :
    WorkUnit.dbContainer "db" ∈
      (get_workunits_internal c3_insp cfgAll "db" report0).1 ∧
    WorkUnit.schemaContainer "db" "s1" ∈
      (get_workunits_internal c3_insp cfgAll "db" report0).1 ∧
    WorkUnit.dataset "s1" "s1.bad" (some []) ∈
      (get_workunits_internal c3_insp cfgAll "db" report0).1 ∧
    ("s1.bad", "unable to get column information due to an error -> boom") ∈
      (get_workunits_internal c3_insp cfgAll "db" report0).2.2.warnings := by
  have h := c3_column_failure_isolated c3_insp cfgAll "db" "s1" "bad"
    (PyErr.otherError "boom") report0 (PKConstraints.dict []) rfl (by decide)
    rfl (by decide) rfl rfl rfl
  exact ⟨h.1, h.2.1, h.2.2.1, h.2.2.2.1⟩

/-- **C3, counterexample.**  The claim as stated fails: the failing table
`bad` is *not* excluded from the output (a dataset work unit for `s1.bad` is
emitted) and no failure is recorded for it (the failure list stays empty —
only a warning is recorded). -/
theorem c3_counterexample :
    WorkUnit.dataset "s1" "s1.bad" (some []) ∈
      (get_workunits_internal c3_insp cfgAll "db" report0).1 ∧
    (get_workunits_internal c3_insp cfgAll "db" report0).2.2.failures = [] := by
  refine ⟨by decide, by decide⟩

/-- `containers_precede` is preserved by concatenation. -/
theorem containers_precede_append (db : String) (A B : List WorkUnit)
    (hA : containers_precede db A) (hB : containers_precede db B) :
    containers_precede db (A ++ B) := by
  intro l1 l2 schema n f h
  rcases List.append_eq_append_iff.mp h.symm with ⟨a', hA', hsplit⟩ |
    ⟨c', hl1, hB'⟩
  · cases a' with
    | nil =>
      simp only [List.nil_append] at hsplit
      exact absurd (hB [] l2 schema n f hsplit.symm) (List.not_mem_nil _)
    | cons x a'' =>
      simp only [List.cons_append] at hsplit
      injection hsplit with h1 h2
      have hAeq : A = l1 ++ WorkUnit.dataset schema n f :: a'' := by
        rw [hA', ← h1]
      exact hA l1 a'' schema n f hAeq
  · rw [hl1]
    exact List.mem_append_right _ (hB c' l2 schema n f hB')

/-- Every dataset work unit of one schema's pass belongs to that schema. -/
theorem process_schema_dataset_schema (insp : Inspector) (cfg : SQLConfig)
    (db_name schema : String) (report : Report) (s' n : String)
    (f : Option (List SchemaField))
    (h : WorkUnit.dataset s' n f ∈
      (process_schema insp cfg db_name schema report).1) :
    s' = schema := by
  simp only [process_schema] at h
  cases List.mem_cons.mp h with
  | inl hc => exact absurd hc (by simp)
  | inr hin =>
    rcases List.mem_append.mp hin with hl | hr
    · by_cases ht : cfg.include_tables = true
      · rw [if_pos ht] at hl
        exact (loop_tables_go_dataset_sound insp cfg schema _ _ _ s' n f hl).1
      · rw [if_neg ht] at hl
        exact absurd hl (List.not_mem_nil _)
    · by_cases hv : cfg.include_views = true
      · rw [if_pos hv] at hr
        exact loop_views_go_dataset_schema insp cfg schema _ _ s' n f hr
      · rw [if_neg hv] at hr
        exact absurd hr (List.not_mem_nil _)

/-- Within one schema's pass, the schema container precedes every dataset
work unit. -/
theorem containers_precede_process_schema (insp : Inspector) (cfg : SQLConfig)
    (db_name schema : String) (report : Report) :
    containers_precede db_name
      (process_schema insp cfg db_name schema report).1 := by
  intro l1 l2 s' n f h
  cases l1 with
  | nil =>
    simp only [process_schema, List.nil_append] at h
    injection h with h1 _
    exact WorkUnit.noConfusion h1
  | cons a l1' =>
    simp only [process_schema, List.cons_append] at h
    injection h with h1 h2
    have hmem : WorkUnit.dataset s' n f ∈
        (process_schema insp cfg db_name schema report).1 := by
      simp only [process_schema]
      refine List.mem_cons_of_mem _ ?_
      rw [h2]
      exact List.mem_append_right _ (List.mem_cons_self _ _)
    have hs' : s' = schema :=
      process_schema_dataset_schema insp cfg db_name schema report s' n f hmem
    rw [hs', h1]
    exact List.mem_cons_self _ _

/-- The whole walk keeps every dataset work unit after its schema
container. -/
theorem containers_precede_run_schemas (insp : Inspector) (cfg : SQLConfig)
    (db_name : String) :
    ∀ (schemas : List String) (report : Report),
      containers_precede db_name
        (run_schemas insp cfg db_name schemas report).1 := by
  intro schemas
  induction schemas with
  | nil =>
    intro report l1 l2 s' n f h
    simp only [run_schemas] at h
    exact absurd h.symm (by simp)
  | cons x ss ih =>
    intro report
    simp only [run_schemas]
    exact containers_precede_append db_name _ _
      (containers_precede_process_schema insp cfg db_name x report)
      (ih _)

/-- **C9.**  In the emitted stream, every dataset-snapshot work unit is
preceded by the database container work unit and by the schema container
work unit of its parent schema. -/
theorem c9_containers_before_datasets (insp : Inspector) (cfg : SQLConfig)
    (db_name : String) (report : Report) (l1 l2 : List WorkUnit)
    (schema n : String) (f : Option (List SchemaField))
    (h : (get_workunits_internal insp cfg db_name report).1 =
      l1 ++ WorkUnit.dataset schema n f :: l2) :
    WorkUnit.dbContainer db_name ∈ l1 ∧
    WorkUnit.schemaContainer db_name schema ∈ l1 := by
  simp only [get_workunits_internal] at h
  cases l1 with
  | nil =>
    simp only [List.nil_append] at h
    injection h with h1 _
    exact WorkUnit.noConfusion h1
  | cons a l1' =>
    simp only [List.cons_append] at h
    injection h with h1 h2
    constructor
    · rw [h1]
      exact List.mem_cons_self _ _
    · exact List.mem_cons_of_mem _
        (containers_precede_run_schemas insp cfg db_name _ _ l1' l2
          schema n f h2)

/-- **C9, witness.**  On the concrete healthy catalog, the run's stream splits
at its table's dataset work unit with both containers in the prefix. -/
theorem c9_containers_before_datasets_witness :
    WorkUnit.dbContainer "db" ∈
      [WorkUnit.dbContainer "db", WorkUnit.schemaContainer "db" "s",
       WorkUnit.containment "s.t"] ∧
    WorkUnit.schemaContainer "db" "s" ∈
      [WorkUnit.dbContainer "db", WorkUnit.schemaContainer "db" "s",
       WorkUnit.containment "s.t"] :=
  c9_containers_before_datasets c9_insp cfgAll "db" report0
    [WorkUnit.dbContainer "db", WorkUnit.schemaContainer "db" "s",
     WorkUnit.containment "s.t"]
    [WorkUnit.containment "s.v",
     WorkUnit.dataset "s" "s.v" (some [SchemaField.mk "id" true false]),
     WorkUnit.viewProps "s.v" (ViewProperties.mk false "SQL" "SELECT 1")]
    "s" "s.t" (some [SchemaField.mk "id" true true]) (by decide)

/-- A reason recorded under a key is found by `warnings.get(key)`. -/
theorem warnings_under_mem (r : Report) (key x : String)
    (h : (key, x) ∈ r.warnings) : x ∈ warnings_under r key := by
  unfold warnings_under
  exact List.mem_filterMap.mpr ⟨(key, x), h, by simp⟩

/-- The requests of one per-schema pass are the profiler loop's requests over
the report left by the table and view loops. -/
theorem process_schema_requests_eq (insp : Inspector) (cfg : SQLConfig)
    (db_name schema : String) (report : Report) :
    (process_schema insp cfg db_name schema report).2.1 =
      if cfg.profiling_enabled = true then
        (loop_profiler_requests insp cfg schema
          (post_tv_report insp cfg schema report)).1
      else [] := by
  simp only [process_schema, post_tv_report, loop_profiler_requests]
  by_cases hp : cfg.profiling_enabled = true
  · rw [if_pos hp, if_pos hp]
  · rw [if_neg hp, if_neg hp]

/-- Every yielded profile request names a listed table whose identifier is
not flagged with `MISSING_COLUMN_INFO` in the report at loop entry. -/
theorem loop_profiler_requests_go_sound (cfg : SQLConfig) (schema : String) :
    ∀ (ts seen : List String) (report : Report) (n : String),
      n ∈ (loop_profiler_requests_go cfg schema ts seen report).1 →
      ∃ t ∈ ts, n = get_identifier schema t ∧
        n ∉ warnings_under report MISSING_COLUMN_INFO := by
  intro ts
  induction ts with
  | nil => intro seen report n h; simp [loop_profiler_requests_go] at h
  | cons t ts ih =>
    intro seen report n h
    simp only [loop_profiler_requests_go] at h
    by_cases he : is_dataset_eligible_for_profiling (get_identifier schema t)
        cfg cfg.profile_candidates = true
    · rw [if_neg (by simp [he])] at h
      by_cases hseen : get_identifier schema t ∈ seen
      · rw [if_pos hseen] at h
        obtain ⟨t', ht', rest⟩ := ih seen report n h
        exact ⟨t', List.mem_cons_of_mem _ ht', rest⟩
      · rw [if_neg hseen] at h
        by_cases hmiss : get_identifier schema t ∈
            warnings_under report MISSING_COLUMN_INFO
        · rw [if_pos hmiss] at h
          obtain ⟨t', ht', rest⟩ := ih _ report n h
          exact ⟨t', List.mem_cons_of_mem _ ht', rest⟩
        · rw [if_neg hmiss] at h
          cases List.mem_cons.mp h with
          | inl hn => exact ⟨t, List.mem_cons_self _ _, hn, hn ▸ hmiss⟩
          | inr hrest =>
            obtain ⟨t', ht', hn, hmiss'⟩ := ih _
              (report_entity_profiled report) n hrest
            exact ⟨t', List.mem_cons_of_mem _ ht', hn, hmiss'⟩
    · rw [if_pos (by simp [he])] at h
      by_cases hd : cfg.report_dropped_profiles = true
      · rw [if_pos hd] at h
        obtain ⟨t', ht', hn, hmiss'⟩ := ih seen _ n h
        exact ⟨t', List.mem_cons_of_mem _ ht', hn, hmiss'⟩
      · rw [if_neg hd] at h
        obtain ⟨t', ht', rest⟩ := ih seen report n h
        exact ⟨t', List.mem_cons_of_mem _ ht', rest⟩

/-- Every request of the whole walk stems from some listed schema's pass. -/
theorem run_schemas_requests_sound (insp : Inspector) (cfg : SQLConfig)
    (db_name : String) :
    ∀ (schemas : List String) (report : Report) (n : String),
      n ∈ (run_schemas insp cfg db_name schemas report).2.1 →
      ∃ s ∈ schemas, ∃ r, n ∈ (process_schema insp cfg db_name s r).2.1 := by
  intro schemas
  induction schemas with
  | nil => intro report n h; simp [run_schemas] at h
  | cons x ss ih =>
    intro report n h
    simp only [run_schemas] at h
    rcases List.mem_append.mp h with h1 | h2
    · exact ⟨x, List.mem_cons_self _ _, report, h1⟩
    · obtain ⟨s, hs, r, hr⟩ := ih _ n h2
      exact ⟨s, List.mem_cons_of_mem _ hs, r, hr⟩

/-- A zero-column table's `MISSING_COLUMN_INFO` warning is present after its
schema's table and view loops, whatever report the pass starts from. -/
theorem post_tv_missing (insp : Inspector) (cfg : SQLConfig)
    (schema t : String) (report : Report)
    (hinc : cfg.include_tables = true) (ht : t ∈ insp.table_names schema)
    (htp : cfg.table_pattern (get_identifier schema t) = true)
    (hcols : insp.columns schema t = Except.ok []) :
    (MISSING_COLUMN_INFO, get_identifier schema t) ∈
      (post_tv_report insp cfg schema report).warnings := by
  refine post_tv_report_warnings_of_tables insp cfg schema report _ hinc ?_
  refine (loop_tables_go_first insp cfg schema (insp.table_names schema) []
    report t ht (by simp) htp).2 _ ?_
  unfold loop_table_warnings table_warnings
  rw [hcols]
  exact List.mem_append_left _ (by simp)

/-- **C7.**  A pattern-allowed table for which introspection returns zero
columns gets the `MISSING_COLUMN_INFO` warning recorded, is still emitted
(schema-less: empty field list), and — provided no other entity's identifier
collides with its own — no profile request is generated for it. -/
theorem c7_missing_column_info (insp : Inspector) (cfg : SQLConfig)
    (db_name schema t : String) (report : Report) (pk : PKConstraints)
    (hinc : cfg.include_tables = true)
    (hs : schema ∈ insp.schema_names)
    (hsp : cfg.schema_pattern schema = true)
    (ht : t ∈ insp.table_names schema)
    (htp : cfg.table_pattern (get_identifier schema t) = true)
    (hcols : insp.columns schema t = Except.ok [])
    (hpk : insp.pk_constraint schema t = Except.ok pk)
    (hnocoll : ∀ s' t', s' ∈ insp.schema_names → t' ∈ insp.table_names s' →
      get_identifier schema t = get_identifier s' t' →
      s' = schema ∧ t' = t) :
    WorkUnit.dataset schema (get_identifier schema t) (some []) ∈
      (get_workunits_internal insp cfg db_name report).1 ∧
    (MISSING_COLUMN_INFO, get_identifier schema t) ∈
      (get_workunits_internal insp cfg db_name report).2.2.warnings ∧
    get_identifier schema t ∉
      (get_workunits_internal insp cfg db_name report).2.1 := by
  have hallowed : ∀ r, schema ∈ (get_allowed_schemas_go cfg
      insp.schema_names r).1 :=
    fun r => get_allowed_schemas_go_mem cfg insp.schema_names r schema hs hsp
  refine ⟨?_, ?_, ?_⟩
  · have hres : table_result insp schema t (get_identifier schema t) =
        Except.ok [WorkUnit.containment (get_identifier schema t),
          WorkUnit.dataset schema (get_identifier schema t) (some [])] := by
      unfold table_result table_fields
      rw [hpk, hcols]
      rfl
    have hloop : ∀ r, WorkUnit.dataset schema (get_identifier schema t)
        (some []) ∈ (loop_tables insp cfg schema r).1 := by
      intro r
      exact (loop_tables_go_first insp cfg schema (insp.table_names schema)
        [] r t ht (by simp) htp).1 _ hres _ (by simp)
    unfold get_workunits_internal
    refine List.mem_cons_of_mem _ ?_
    exact run_schemas_events_mem insp cfg db_name _ _ schema _ (hallowed _)
      (fun r => process_schema_events_tables insp cfg db_name schema r _
        hinc (hloop r))
  · unfold get_workunits_internal
    refine run_schemas_warnings_insert insp cfg db_name _ _ schema _
      (hallowed _) (fun r => ?_)
    rw [process_schema_warnings_eq_post]
    exact post_tv_missing insp cfg schema t r hinc ht htp hcols
  · intro hmem
    obtain ⟨s', hs', r', hr'⟩ := run_schemas_requests_sound insp cfg db_name
      _ _ _ hmem
    have hs'names : s' ∈ insp.schema_names :=
      get_allowed_schemas_go_sub cfg _ _ s' hs'
    rw [process_schema_requests_eq] at hr'
    by_cases hp : cfg.profiling_enabled = true
    · rw [if_pos hp] at hr'
      obtain ⟨t', ht', hn, hmiss⟩ := loop_profiler_requests_go_sound cfg s'
        (insp.table_names s') [] (post_tv_report insp cfg s' r') _ hr'
      obtain ⟨hseq, hteq⟩ := hnocoll s' t' hs'names ht' hn
      subst hseq
      subst hteq
      exact hmiss (warnings_under_mem _ _ _
        (post_tv_missing insp cfg s' t' r' hinc ht htp hcols))
    · rw [if_neg hp] at hr'
      exact absurd hr' (List.not_mem_nil _)

/-- **C7, witness.**  On the concrete catalog where table `t` has zero
columns and table `u` has one: `s.t` is emitted schema-less, the warning is
recorded, and no profile request for `s.t` exists. -/
theorem c7_missing_column_info_witness :
    WorkUnit.dataset "s" "s.t" (some []) ∈
      (get_workunits_internal c7_insp cfgAll "db" report0).1 ∧
    (MISSING_COLUMN_INFO, "s.t") ∈
      (get_workunits_internal c7_insp cfgAll "db" report0).2.2.warnings ∧
    "s.t" ∉ (get_workunits_internal c7_insp cfgAll "db" report0).2.1 := by
  refine c7_missing_column_info c7_insp cfgAll "db" "s" "t" report0
    (PKConstraints.dict []) rfl (by decide) rfl (by decide) rfl rfl rfl ?_
  intro s' t' hs' ht' heq
  simp only [c7_insp] at hs' ht'
  simp only [List.mem_singleton] at hs'
  subst hs'
  rcases List.mem_cons.mp ht' with h1 | h2
  · exact ⟨rfl, h1⟩
  · simp only [List.mem_singleton] at h2
    subst h2
    exact absurd heq (by decide)

/-- **C5, witness.**  The eligibility equivalence at a concrete input. -/
theorem c5_profiling_eligibility_witness :
    is_dataset_eligible_for_profiling "public.orders" cfgAll
        (some ["public.orders"]) = true ↔
      (cfgAll.table_pattern "public.orders" = true ∧
       cfgAll.profile_pattern "public.orders" = true ∧
       ((some ["public.orders"] : Option (List String)) = none ∨
        ∃ cs, (some ["public.orders"] : Option (List String)) = some cs ∧
          "public.orders" ∈ cs)) :=
  c5_profiling_eligibility "public.orders" cfgAll (some ["public.orders"])

/-- **C2, witness.**  The table loop's emitted identifiers are distinct on a
concrete catalog. -/
theorem c2_tables_dedup_witness :
    (dataset_names (loop_tables c3_insp cfgAll "s1" report0).1).Nodup :=
  c2_tables_dedup c3_insp cfgAll "s1" report0

/-- **C8, witness.**  The amended statement at the default module state. -/
theorem c8_register_mutates_module_state_witness :
    (register_custom_type initRegistry customTypeKey
        (some FieldTypeClass.NumberType)).field_type_mapping.find?
      (fun p => p.1 = customTypeKey) =
      some (customTypeKey, FieldTypeClass.NumberType) :=
  (c8_register_mutates_module_state initRegistry customTypeKey
    FieldTypeClass.NumberType).1

end SqlCommon
